import Mathlib

/-!
Shallow embedding of the FlowBitAI invoice memory agent
(`src/MemoryAgent.ts`, `src/MemoryStore.ts` (JSON-backed), `src/types.ts`).

Conventions of the embedding:
* JavaScript numbers are modelled as rationals (`ℚ`); all arithmetic in the
  source stays far from binary-float rounding boundaries at every claim input.
* JavaScript dynamic values stored in invoice fields are modelled by `JsVal`
  (string / number / null / undefined, plus a marker for the line-item array
  as seen through dynamic property access).
* Wall-clock timestamps (`new Date().toISOString()`) are passed in as an
  explicit `now : String` parameter.
* Strings are manipulated through their underlying `List Char`, mirroring
  `indexOf` / `substring` / `trim` / `replace` / `split` from the source.
-/

namespace FlowBit

/-- A JavaScript value as it can appear in an invoice field.  `varr` marks the
`lineItems` array when it is read through dynamic property access (it is never
null/undefined/empty-string, which is all the agent ever checks on it). -/
inductive JsVal where
  | vstr (s : String)
  | vnum (q : ℚ)
  | vnull
  | vundef
  | varr
deriving DecidableEq, Repr

/-- JavaScript truthiness of a `JsVal` (`NaN` cannot arise: the only
non-numeric-to-number coercions in the agent are guarded). -/
def jsTruthy : JsVal → Bool
  | .vstr s => !(s = "")
  | .vnum q => !(q = 0)
  | .vnull => false
  | .vundef => false
  | .varr => true

/-- JavaScript falsiness: `!v`. -/
def jsFalsy (v : JsVal) : Bool := !(jsTruthy v)

/-- `Option String` (string-or-null) viewed as a JS value, used where the code
reads a nullable line-item member into a `Correction`. -/
def jsOfOptStr : Option String → JsVal
  | none => .vnull
  | some s => .vstr s

/-- JS falsiness of a nullable string member (`!item.sku`). -/
def optStrFalsy : Option String → Bool
  | none => true
  | some s => s = ""

/-- Does the list start with the given pattern? -/
def listStartsWith : List Char → List Char → Bool
  | _, [] => true
  | [], _ :: _ => false
  | a :: as, b :: bs => a = b && listStartsWith as bs

/-- Helper for `String.prototype.indexOf`. -/
def jsIndexOfAux (needle : List Char) : List Char → Nat → Option Nat
  | [], i => if listStartsWith [] needle then some i else none
  | s@(_ :: t), i => if listStartsWith s needle then some i else jsIndexOfAux needle t (i + 1)

/-- `s.indexOf(sub)`, with `none` for `-1`. -/
def jsIndexOf (s sub : String) : Option Nat := jsIndexOfAux sub.data s.data 0

/-- `s.includes(sub)`. -/
def containsSubstr (s sub : String) : Bool := (jsIndexOf s sub).isSome

/-- `s.endsWith(suf)`. -/
def strEndsWith (s suf : String) : Bool := listStartsWith s.data.reverse suf.data.reverse

/-- The whitespace class used by `trim` and `\s` (the claim inputs only
use space and newline; exotic Unicode whitespace is out of model). -/
def jsIsWs (c : Char) : Bool :=
  c = ' ' || c = '\t' || c = '\n' || c = '\r' || c = '\x0b' || c = '\x0c'

/-- Drop trailing whitespace. -/
def dropTrailingWs (cs : List Char) : List Char := ((cs.reverse).dropWhile jsIsWs).reverse

/-- `String.prototype.trim` on the character list. -/
def jsTrimList (cs : List Char) : List Char := dropTrailingWs (cs.dropWhile jsIsWs)

/-- `s.trim()`. -/
def jsTrim (s : String) : String := ⟨jsTrimList s.data⟩

/-- Case folding used for the `i` regex flag and `toLowerCase()`:
ASCII letters plus the German letters appearing in the label class. -/
def foldChar (c : Char) : Char :=
  if c = 'Ä' then 'ä' else if c = 'Ö' then 'ö' else if c = 'Ü' then 'ü' else c.toLower

/-- `s.toLowerCase()` (restricted to the character repertoire of the data). -/
def lowerStr (s : String) : String := ⟨s.data.map foldChar⟩

/-- The letter class of the label regex `([A-Za-zäöüÄÖÜß]+)`. -/
def isLabelChar (c : Char) : Bool :=
  ('A' ≤ c && c ≤ 'Z') || ('a' ≤ c && c ≤ 'z') ||
  c = 'ä' || c = 'ö' || c = 'ü' || c = 'Ä' || c = 'Ö' || c = 'Ü' || c = 'ß'

/-- `cleanContext.match(/([A-Za-zäöüÄÖÜß]+):?\x7d?\s*$/)`, i.e. the trailing
label token.  The JS regex `([A-Za-zäöüÄÖÜß]+):?\s*$` matches iff the string
decomposes as `p ++ w ++ c ++ t` with `w` a nonempty maximal letter run,
`c` empty or a single colon, and `t` whitespace; the capture is `w`.
(The greedy `+` forces `w` maximal, and only the last letter run can be
followed by just an optional colon and whitespace.) -/
def labelExtract (cs : List Char) : Option (List Char) :=
  let s1 := dropTrailingWs cs
  let s2 := match s1.reverse with
    | ':' :: r => r.reverse
    | _ => s1
  let w := (s2.reverse.takeWhile isLabelChar).reverse
  if w = [] then none else some w

/-- One escaped character of `escapeRegExp` (source character class
`[.*+?^$\x7b\x7d()|[\\]`; note the source does *not* escape `]`). -/
def escapeChar (c : Char) : List Char :=
  if c = '.' || c = '*' || c = '+' || c = '?' || c = '^' || c = '$' ||
     c = '{' || c = '}' || c = '(' || c = ')' || c = '|' || c = '[' || c = '\\' then
    ['\\', c]
  else [c]

/-- `escapeRegExp` on a character list. -/
def escapeRegExpL (cs : List Char) : List Char :=
  cs.foldr (fun c acc => escapeChar c ++ acc) []

/-- `escapedValue.replace(/\d/g, "\\d")`: generalize every digit. -/
def digitGeneralize (cs : List Char) : List Char :=
  cs.foldr (fun c acc => if c.isDigit then '\\' :: 'd' :: acc else c :: acc) []

/-- Does `\d\x7b2\x7d<sep>\d\x7b2\x7d<sep>\d\x7b4\x7d` match at the head of the list? -/
def dateShapeAt (sep : Char) : List Char → Bool
  | a :: b :: s1 :: c :: d :: s2 :: e :: f :: g :: h :: _ =>
    a.isDigit && b.isDigit && s1 = sep && c.isDigit && d.isDigit && s2 = sep &&
    e.isDigit && f.isDigit && g.isDigit && h.isDigit
  | _ => false

/-- `/\d\x7b2\x7d<sep>\d\x7b2\x7d<sep>\d\x7b4\x7d/.test(val)`: the unanchored test. -/
def containsDateShape (sep : Char) : List Char → Bool
  | [] => dateShapeAt sep []
  | s@(_ :: t) => dateShapeAt sep s || containsDateShape sep t

/-- `/^\d\x7b4\x7d-\d\x7b2\x7d-\d\x7b2\x7d$/.test(val)`. -/
def isIsoShape : List Char → Bool
  | [y1, y2, y3, y4, h1, m1, m2, h2, d1, d2] =>
    y1.isDigit && y2.isDigit && y3.isDigit && y4.isDigit && h1 = '-' &&
    m1.isDigit && m2.isDigit && h2 = '-' && d1.isDigit && d2.isDigit
  | _ => false

/-! ## A small regex engine

The engine covers exactly the regex dialect the learner emits: literals,
the classes `\d`, `\s` and `.`, the quantifiers `?`, `*` and `\x7bn\x7d`, and one
capturing group.  Pattern strings outside this dialect fail to parse and
behave as "no match", which is where the source's `try/catch` lands for
genuinely malformed patterns. -/

/-- Character classes. -/
inductive CCl where
  | digit
  | space
  | dot
deriving DecidableEq, Repr

/-- Class membership (`.` excludes line terminators, no `s` flag). -/
def cclMatch : CCl → Char → Bool
  | .digit, c => c.isDigit
  | .space, c => jsIsWs c
  | .dot, c => !(c = '\n') && !(c = '\r')

/-- Regex abstract syntax. -/
inductive RE where
  | eps
  | lit (c : Char)
  | cls (k : CCl)
  | seq (a b : RE)
  | opt (a : RE)
  | star (a : RE)
  | rep (a : RE) (n : Nat)
  | grp (a : RE)
deriving DecidableEq, Repr

/-- A size measure used to compute a sufficient backtracking fuel. -/
def reSizeF : RE → Nat
  | .eps => 1
  | .lit _ => 1
  | .cls _ => 1
  | .seq a b => reSizeF a + reSizeF b + 1
  | .opt a => reSizeF a + 1
  | .star a => reSizeF a + 2
  | .rep a n => (n + 1) * (reSizeF a + 1) + 1
  | .grp a => reSizeF a + 1

/-- Backtracking matcher in continuation style.  `cap` carries the capture of
group 1 on the current path.  Case-insensitive (`i` flag) via `foldChar`.
Greedy `?`/`*` try the consuming branch first and fall back on continuation
failure, like the JS backtracking engine.  `fuel` bounds the call depth; the
top level supplies more than any path can use. -/
def matchRE : Nat → RE → List Char → Option (List Char) →
    (List Char → Option (List Char) → Option (Option (List Char))) →
    Option (Option (List Char))
  | 0, _, _, _, _ => none
  | Nat.succ fuel, re, s, cap, k =>
    match re with
    | .eps => k s cap
    | .lit c =>
      match s with
      | [] => none
      | x :: t => if foldChar x = foldChar c then k t cap else none
    | .cls kc =>
      match s with
      | [] => none
      | x :: t => if cclMatch kc x then k t cap else none
    | .seq a b => matchRE fuel a s cap (fun s1 c1 => matchRE fuel b s1 c1 k)
    | .opt a =>
      match matchRE fuel a s cap k with
      | some r => some r
      | none => k s cap
    | .star a =>
      match matchRE fuel a s cap (fun s1 c1 => matchRE fuel (RE.star a) s1 c1 k) with
      | some r => some r
      | none => k s cap
    | .rep a n =>
      match n with
      | 0 => k s cap
      | Nat.succ m => matchRE fuel a s cap (fun s1 c1 => matchRE fuel (RE.rep a m) s1 c1 k)
    | .grp a => matchRE fuel a s cap (fun s1 _ => k s1 (some (s.take (s.length - s1.length))))

/-- Fuel that exceeds the depth of any backtracking path on this input. -/
def fuelFor (re : RE) (s : List Char) : Nat := (reSizeF re + 2) * (2 * s.length + 4) + 8

/-- Leftmost match: try each start position in order; on success return the
capture of group 1 (`some none` = matched with group not engaged). -/
def jsSearchAux (re : RE) : List Char → Option (Option (List Char))
  | [] => matchRE (fuelFor re []) re [] none (fun _ cap => some cap)
  | s@(_ :: t) =>
    match matchRE (fuelFor re s) re s none (fun _ cap => some cap) with
    | some cap => some cap
    | none => jsSearchAux re t

/-- Parse a nonempty digit run. -/
def parseNatL : List Char → Option (Nat × List Char)
  | c :: t =>
    if c.isDigit then
      match parseNatL t with
      | some (n, r) => some ((c.toNat - '0'.toNat) * 10 ^ (t.length - r.length) + n, r)
      | none => some (c.toNat - '0'.toNat, t)
    else none
  | [] => none

/-- Attach a postfix quantifier to an atom if one follows. -/
def parseQuant (a : RE) (cs : List Char) : RE × List Char :=
  match cs with
  | '?' :: t => (.opt a, t)
  | '*' :: t => (.star a, t)
  | '{' :: t =>
    match parseNatL t with
    | some (n, '}' :: t2) => (.rep a n, t2)
    | _ => (a, cs)
  | _ => (a, cs)

/-- One escape: `\d`, `\s`, or an escaped literal; alphanumeric escapes other
than `d`/`s` (classes and backreferences) are outside the dialect. -/
def parseEsc (c : Char) : Option RE :=
  if c = 'd' then some (.cls .digit)
  else if c = 's' then some (.cls .space)
  else if c.isAlpha || c.isDigit then none
  else some (.lit c)

/-- Parse a sequence of quantified atoms until `)` or end of input. -/
def parseREAux : Nat → List Char → Option (List RE × List Char)
  | 0, _ => none
  | _ + 1, [] => some ([], [])
  | _ + 1, ')' :: rest => some ([], ')' :: rest)
  | fuel + 1, c :: rest =>
    let atomRes : Option (RE × List Char) :=
      if c = '\\' then
        match rest with
        | [] => none
        | e :: r2 => (parseEsc e).map (fun a => (a, r2))
      else if c = '(' then
        match parseREAux fuel rest with
        | some (items, ')' :: r3) => some (.grp (items.foldr RE.seq RE.eps), r3)
        | _ => none
      else if c = '.' then some (.cls .dot, rest)
      else if c = '?' || c = '*' || c = '+' || c = '|' || c = '[' || c = '^' || c = '$' then
        none
      else some (.lit c, rest)
    match atomRes with
    | none => none
    | some (a, r1) =>
      match parseQuant a r1 with
      | (aq, r2) =>
        match parseREAux fuel r2 with
        | some (items, r3) => some (aq :: items, r3)
        | none => none

/-- Parse a whole pattern string (an unmatched `)` is a syntax error, as in
JS where `new RegExp` throws and `extractWithRegex` catches). -/
def parseRegex (p : String) : Option RE :=
  match parseREAux (p.data.length + 2) p.data with
  | some (items, []) => some (items.foldr RE.seq RE.eps)
  | _ => none

/-- `extractWithRegex(text, patternStr)`: compile case-insensitively, take the
leftmost match, return capture group 1; `none` stands for both `null`
(no match / bad pattern) and `undefined` (no group engaged). -/
def extractWithRegex (text patternStr : String) : Option String :=
  match parseRegex patternStr with
  | none => none
  | some re =>
    match jsSearchAux re text.data with
    | some (some cs) => some ⟨cs⟩
    | some none => none
    | none => none

/-! ## Data model (`src/types.ts`)

`qtyDelivered` (PO/delivery-note context, never read by the agent) is
omitted.  Scalar invoice fields hold `JsVal` because `process` reads and
writes them through dynamic property access. -/

/-- A line item (`sku: string | null`, optional description). -/
structure LineItem where
  sku : Option String
  description : Option String
  qty : ℚ
  unitPrice : ℚ
deriving DecidableEq, Repr

/-- The extracted invoice fields.  `extra` models properties created by a
dynamic write to a name that is not a declared field. -/
structure InvoiceFields where
  invoiceNumber : JsVal
  invoiceDate : JsVal
  serviceDate : JsVal
  currency : JsVal
  poNumber : JsVal
  netTotal : JsVal
  taxRate : JsVal
  taxTotal : JsVal
  grossTotal : JsVal
  lineItems : List LineItem
  discountTerms : JsVal
  extra : List (String × JsVal)
deriving DecidableEq, Repr

/-- Replace the value at a key in an association list, else append. -/
def setAssoc {α : Type} (l : List (String × α)) (k : String) (v : α) : List (String × α) :=
  match l with
  | [] => [(k, v)]
  | (k0, v0) :: t => if k0 = k then (k0, v) :: t else (k0, v0) :: setAssoc t k v

/-- `getFieldValue`: paths with `[` read as null; otherwise dynamic property
lookup (`lineItems` reads the array, marked `varr`; unknown names read
`undefined`). -/
def getFieldValue (f : InvoiceFields) (path : String) : JsVal :=
  if containsSubstr path "[" then .vnull
  else if path = "invoiceNumber" then f.invoiceNumber
  else if path = "invoiceDate" then f.invoiceDate
  else if path = "serviceDate" then f.serviceDate
  else if path = "currency" then f.currency
  else if path = "poNumber" then f.poNumber
  else if path = "netTotal" then f.netTotal
  else if path = "taxRate" then f.taxRate
  else if path = "taxTotal" then f.taxTotal
  else if path = "grossTotal" then f.grossTotal
  else if path = "discountTerms" then f.discountTerms
  else if path = "lineItems" then .varr
  else
    match f.extra.lookup path with
    | some v => v
    | none => JsVal.vundef

/-- `setFieldValue`: paths with `[` are a no-op; otherwise dynamic property
write.  (A write to the name `lineItems` would replace the array with a
scalar; both call sites guard it behind a check `varr` can never pass, so it
is left as a no-op here.) -/
def setFieldValue (f : InvoiceFields) (path : String) (v : JsVal) : InvoiceFields :=
  if containsSubstr path "[" then f
  else if path = "invoiceNumber" then { f with invoiceNumber := v }
  else if path = "invoiceDate" then { f with invoiceDate := v }
  else if path = "serviceDate" then { f with serviceDate := v }
  else if path = "currency" then { f with currency := v }
  else if path = "poNumber" then { f with poNumber := v }
  else if path = "netTotal" then { f with netTotal := v }
  else if path = "taxRate" then { f with taxRate := v }
  else if path = "taxTotal" then { f with taxTotal := v }
  else if path = "grossTotal" then { f with grossTotal := v }
  else if path = "discountTerms" then { f with discountTerms := v }
  else if path = "lineItems" then f
  else { f with extra := setAssoc f.extra path v }

/-- A field-level change record. (`from` is a Lean keyword, hence `from_`.) -/
structure Correction where
  field : String
  from_ : JsVal
  to_ : JsVal
  reason : String
deriving DecidableEq, Repr

/-- The human decision on a correction log. -/
inductive FinalDecision where
  | approved
  | rejected
deriving DecidableEq, Repr

/-- A batch of human corrections for one invoice. -/
structure HumanCorrectionLog where
  invoiceId : String
  vendor : String
  corrections : List Correction
  finalDecision : FinalDecision
deriving DecidableEq, Repr

/-- An invoice as delivered by the upstream extraction. -/
structure Invoice where
  invoiceId : String
  vendor : String
  fields : InvoiceFields
  confidence : ℚ
  rawText : String
deriving DecidableEq, Repr

/-- A reference purchase order. -/
structure PurchaseOrder where
  poNumber : String
  vendor : String
  date : String
  lineItems : List LineItem
deriving DecidableEq, Repr

/-- A reference delivery note (never read by the agent). -/
structure DeliveryNote where
  dnNumber : String
  vendor : String
  poNumber : String
  date : String
  lineItems : List LineItem
deriving DecidableEq, Repr

/-- The reference-data bundle. -/
structure ReferenceData where
  purchaseOrders : List PurchaseOrder
  deliveryNotes : List DeliveryNote
deriving DecidableEq, Repr

/-! ## Memory store (`src/MemoryStore.ts`, JSON-backed) -/

/-- A learned extraction pattern. -/
structure ExtractionPattern where
  field : String
  regexPattern : String
  confidence : ℚ
  usageCount : Nat
  lastUsed : String
deriving DecidableEq, Repr

/-- A learned static value correction.  `triggerValue`/`correctedValue` are
typed `any` in the source; the engine only ever stores strings there, which
is the type used here. -/
structure ValueCorrection where
  field : String
  triggerValue : Option String
  correctedValue : String
  condition : Option String
  confidence : ℚ
  usageCount : Nat
deriving DecidableEq, Repr

/-- One vendor's learned memory. -/
structure VendorMemory where
  vendorName : String
  patterns : List ExtractionPattern
  staticCorrections : List ValueCorrection
deriving DecidableEq, Repr

/-- The whole store. -/
structure MemoryStoreData where
  vendors : List (String × VendorMemory)
deriving DecidableEq, Repr

/-- `getVendorMemory`: an absent vendor reads as an empty memory. (The source
also lazily inserts the empty record; the inserted record is exactly the
returned one, so a pure read is observationally equal.) -/
def getVendorMemory (d : MemoryStoreData) (vendor : String) : VendorMemory :=
  match d.vendors.lookup vendor with
  | some m => m
  | none => ⟨vendor, [], []⟩

/-- `updateVendorMemory`. -/
def setVendor (d : MemoryStoreData) (vendor : String) (m : VendorMemory) : MemoryStoreData :=
  ⟨setAssoc d.vendors vendor m⟩

/-- Reinforcement of an existing pattern row: usage up, confidence
`min(1.0, c + 0.05)`, refreshed `lastUsed`. -/
def reinforcedPattern (q : ExtractionPattern) (now : String) : ExtractionPattern :=
  { q with usageCount := q.usageCount + 1, lastUsed := now,
           confidence := min 1 (q.confidence + 5 / 100) }

/-- Upsert into a pattern list by key (field, regexPattern): the first
matching row is reinforced in place; otherwise push at the end. -/
def upsertPattern (ps : List ExtractionPattern) (p : ExtractionPattern) (now : String) :
    List ExtractionPattern :=
  match ps with
  | [] => [p]
  | q :: t =>
    if q.field = p.field ∧ q.regexPattern = p.regexPattern then reinforcedPattern q now :: t
    else q :: upsertPattern t p now

/-- `MemoryStore.addPattern`. -/
def addPattern (d : MemoryStoreData) (vendor : String) (p : ExtractionPattern) (now : String) :
    MemoryStoreData :=
  let mem := getVendorMemory d vendor
  setVendor d vendor { mem with patterns := upsertPattern mem.patterns p now }

/-- Reinforcement of an existing static-correction row. -/
def reinforcedStatic (q : ValueCorrection) : ValueCorrection :=
  { q with usageCount := q.usageCount + 1, confidence := min 1 (q.confidence + 5 / 100) }

/-- Upsert into a static-correction list by key
(field, triggerValue, correctedValue). -/
def upsertStatic (cs : List ValueCorrection) (c : ValueCorrection) : List ValueCorrection :=
  match cs with
  | [] => [c]
  | q :: t =>
    if q.field = c.field ∧ q.triggerValue = c.triggerValue ∧ q.correctedValue = c.correctedValue
    then reinforcedStatic q :: t
    else q :: upsertStatic t c

/-- `MemoryStore.addStaticCorrection`. -/
def addStaticCorrection (d : MemoryStoreData) (vendor : String) (c : ValueCorrection) :
    MemoryStoreData :=
  let mem := getVendorMemory d vendor
  setVendor d vendor { mem with staticCorrections := upsertStatic mem.staticCorrections c }

/-! ## `MemoryAgent.learn` -/

/-- Minimum target-value length for pattern learning (3 for currency, else 4). -/
def minLengthFor (field : String) : Nat := if field = "currency" then 3 else 4

/-- The candidate textual renderings of the corrected value: the value, plus
`DD.MM.YYYY` and `DD/MM/YYYY` when it is an ISO date. -/
def searchValues (v : String) : List String :=
  if isIsoShape v.data then
    match v.data with
    | [y1, y2, y3, y4, _, m1, m2, _, d1, d2] =>
      [v, ⟨[d1, d2, '.', m1, m2, '.', y1, y2, y3, y4]⟩,
       ⟨[d1, d2, '/', m1, m2, '/', y1, y2, y3, y4]⟩]
    | _ => [v]
  else [v]

/-- The value-shape part of the induced regex: specialized date shapes, else
the literal-escaped digit-generalized value in a capture group. -/
def valueShape (val : String) : String :=
  if containsDateShape '.' val.data then "(\\d{2}\\.\\d{2}\\.\\d{4})"
  else if containsDateShape '/' val.data then "(\\d{2}/\\d{2}/\\d{4})"
  else ⟨'(' :: (digitGeneralize (escapeRegExpL val.data) ++ [')'])⟩

/-- The 25-character window immediately before the match position. -/
def windowContext (rawText : List Char) (idx : Nat) : List Char :=
  let start := idx - 25
  (rawText.drop start).take (idx - start)

/-- Window with newlines collapsed to spaces, then trimmed. -/
def cleanContext (rawText : List Char) (idx : Nat) : List Char :=
  jsTrimList ((windowContext rawText idx).map (fun c => if c = '\n' then ' ' else c))

/-- Build the labeled extraction pattern if a trailing label is found. -/
def labeledPattern (rawText field val now : String) (idx : Nat) : Option ExtractionPattern :=
  match labelExtract (cleanContext rawText.data idx) with
  | none => none
  | some label =>
    some { field := field,
           regexPattern := (⟨label⟩ : String) ++ ":?\\s*" ++ valueShape val,
           confidence := 6 / 10, usageCount := 1, lastUsed := now }

/-- The first search value found verbatim in the raw text, with its index
(the loop sets `foundMatch` on the first hit and stops). -/
def firstFoundValue (rawText : String) : List String → Option (String × Nat)
  | [] => none
  | v :: t =>
    match jsIndexOf rawText v with
    | some i => some (v, i)
    | none => firstFoundValue rawText t

/-- Maximal non-whitespace runs (the effect of `split(/\s+/)` after the
length-1 filter drops the possible leading empty piece). -/
def splitWsAux : List Char → List Char → List (List Char)
  | [], acc => if acc = [] then [] else [acc.reverse]
  | c :: t, acc =>
    if jsIsWs c then
      if acc = [] then splitWsAux t [] else acc.reverse :: splitWsAux t []
    else splitWsAux t (c :: acc)

/-- Join escaped words with `.*`. -/
def joinDotStar : List (List Char) → List Char
  | [] => []
  | [w] => w
  | w :: ws => w ++ '.' :: '*' :: joinDotStar ws

/-- The flexible token pattern: words of length > 1, at least 3 of them,
escaped and joined with `.*`. -/
def flexPattern (v : String) : Option String :=
  let words := (splitWsAux v.data []).filter (fun w => 1 < w.length)
  if 2 < words.length then some ⟨joinDotStar (words.map escapeRegExpL)⟩
  else none

/-- Case-insensitive test of the flexible pattern against the raw text. -/
def flexMatches (rawText pat : String) : Bool :=
  match parseRegex pat with
  | none => false
  | some re => (jsSearchAux re rawText.data).isSome

/-- Step 1 of `learn` for one correction: pattern learning. -/
def learnPatternStep (store : MemoryStoreData) (vendor rawText now : String)
    (c : Correction) : MemoryStoreData :=
  match c.to_ with
  | .vstr v =>
    if minLengthFor c.field ≤ v.length then
      match firstFoundValue rawText (searchValues v) with
      | some (val, idx) =>
        match labeledPattern rawText c.field val now idx with
        | some pat => addPattern store vendor pat now
        | none => store
      | none =>
        if containsSubstr v " " then
          match flexPattern v with
          | some fp =>
            if flexMatches rawText fp then
              addPattern store vendor
                { field := c.field, regexPattern := fp, confidence := 5 / 10,
                  usageCount := 1, lastUsed := now } now
            else store
          | none => store
        else store
    else store
  | _ => store

/-- Leftmost match of `/lineItems\[(\d+)\]\.sku/` at the head of the list. -/
def matchSkuAt (s : List Char) : Option Nat :=
  if listStartsWith s ("lineItems[".data) then
    match parseNatL (s.drop 10) with
    | some (n, rest) => if listStartsWith rest ("].sku".data) then some n else none
    | none => none
  else none

/-- Unanchored leftmost match of `/lineItems\[(\d+)\]\.sku/`, capturing the
index. -/
def skuFieldIndexAux : List Char → Option Nat
  | [] => matchSkuAt []
  | s@(_ :: t) =>
    match matchSkuAt s with
    | some n => some n
    | none => skuFieldIndexAux t

/-- Parse the line-item index out of a `lineItems[i].sku` field path. -/
def skuFieldIndex (field : String) : Option Nat := skuFieldIndexAux field.data

/-- Step 2 of `learn` for one correction: description-to-SKU mapping. -/
def learnSkuStep (store : MemoryStoreData) (vendor : String) (fields : InvoiceFields)
    (c : Correction) : MemoryStoreData :=
  if containsSubstr c.field "sku" && jsTruthy c.to_ then
    match skuFieldIndex c.field with
    | some idx =>
      match (fields.lineItems.get? idx).bind (fun item => item.description) with
      | some desc =>
        if desc = "" then store
        else
          match c.to_ with
          | .vstr tv =>
            addStaticCorrection store vendor
              { field := "lineItems.sku", triggerValue := some desc, correctedValue := tv,
                condition := none, confidence := 8 / 10, usageCount := 1 }
          | _ => store
      | none => store
    | none => store
  else store

/-- One correction of the learn loop (step 3, currency, has an empty body in
the source). -/
def learnStep (vendor rawText : String) (fields : InvoiceFields) (now : String)
    (store : MemoryStoreData) (c : Correction) : MemoryStoreData :=
  learnSkuStep (learnPatternStep store vendor rawText now c) vendor fields c

/-- `MemoryAgent.learn`: a no-op on rejected logs, else fold the corrections
in order. -/
def learn (store : MemoryStoreData) (now : String) (invoice : Invoice)
    (humanLog : HumanCorrectionLog) : MemoryStoreData :=
  match humanLog.finalDecision with
  | .rejected => store
  | .approved =>
    humanLog.corrections.foldl (learnStep invoice.vendor invoice.rawText invoice.fields now) store

/-! ## `MemoryAgent.process` -/

/-- One audit-trail entry (`timestamp` is the `now` parameter). -/
structure AuditEntry where
  step : String
  timestamp : String
  details : String
deriving DecidableEq, Repr

/-- The mutable state threaded through the processing stages. -/
structure PipeState where
  fields : InvoiceFields
  corrections : List Correction
  review : Bool
  reasoning : String
  audit : List AuditEntry
deriving DecidableEq, Repr

/-- The pattern-stage guard: the field currently reads null, undefined, or
the empty string. -/
def missingRead (v : JsVal) : Prop :=
  v = JsVal.vnull ∨ v = JsVal.vundef ∨ v = JsVal.vstr ""

instance (v : JsVal) : Decidable (missingRead v) := by
  unfold missingRead
  infer_instance

/-- Apply one learned pattern: only when the field currently reads null,
undefined or empty; a truthy capture is written back and recorded. -/
def applyPatternOne (rawText now : String) (st : PipeState) (p : ExtractionPattern) : PipeState :=
  let cur := getFieldValue st.fields p.field
  if missingRead cur then
    match extractWithRegex rawText p.regexPattern with
    | some g =>
      if g = "" then st
      else
        { st with
          fields := setFieldValue st.fields p.field (JsVal.vstr g),
          corrections := st.corrections ++
            [⟨p.field, cur, JsVal.vstr g,
              "Memory applied: Found match in raw text using learned pattern for " ++ p.field⟩],
          audit := st.audit ++ [⟨"apply", now, "Applied pattern for " ++ p.field ++ ": " ++ g⟩] }
    | none => st
  else st

/-- Stage 2a: all learned patterns in order. -/
def applyPatterns (rawText now : String) (ps : List ExtractionPattern) (st : PipeState) :
    PipeState :=
  ps.foldl (applyPatternOne rawText now) st

/-- Does a `.sku` static rule fire on this item?  Description present,
nonempty, containing the trigger, and the SKU falsy. -/
def skuRuleHit (trig : String) (item : LineItem) : Bool :=
  match item.description with
  | some desc => !(desc = "") && containsSubstr desc trig && optStrFalsy item.sku
  | none => false

/-- The item after a firing `.sku` rule. -/
def skuRuleUpd (trig corrected : String) (item : LineItem) : LineItem :=
  if skuRuleHit trig item then { item with sku := some corrected } else item

/-- The Correction recorded for a fired `.sku` rule at a given index. -/
def mkSkuCorrection (idx : Nat) (item : LineItem) (corrected : String) : Correction :=
  ⟨"lineItems[" ++ toString idx ++ "].sku", jsOfOptStr item.sku, JsVal.vstr corrected,
    "Memory applied: Mapped description \x27" ++
      (match item.description with | some d => d | none => "") ++
      "\x27 to SKU \x27" ++ corrected ++ "\x27"⟩

/-- The line-item loop of a `.sku` static rule: set the SKU on every item
whose description contains the trigger and whose SKU is falsy. -/
def applySkuItems (trig corrected : String) : List LineItem → Nat →
    List LineItem × List Correction
  | [], _ => ([], [])
  | item :: t, idx =>
    let item' := skuRuleUpd trig corrected item
    let corrHere : List Correction :=
      if skuRuleHit trig item then [mkSkuCorrection idx item corrected] else []
    let rest := applySkuItems trig corrected t (idx + 1)
    (item' :: rest.1, corrHere ++ rest.2)

/-- Stage 2b, one static rule: line-item SKU mapping for `lineItems` fields,
else a top-level write when the current value is null or the rule is
unconditional. -/
def applyStaticRule (st : PipeState) (rule : ValueCorrection) : PipeState :=
  if containsSubstr rule.field "lineItems" then
    match rule.triggerValue with
    | some trig =>
      if strEndsWith rule.field ".sku" && !(trig = "") then
        match applySkuItems trig rule.correctedValue st.fields.lineItems 0 with
        | (items', corrs) =>
          { st with fields := { st.fields with lineItems := items' },
                    corrections := st.corrections ++ corrs }
      else st
    | none => st
  else
    let cur := getFieldValue st.fields rule.field
    if cur = JsVal.vnull ∨ rule.condition = some "always" then
      { st with
        fields := setFieldValue st.fields rule.field (JsVal.vstr rule.correctedValue),
        corrections := st.corrections ++
          [⟨rule.field, cur, JsVal.vstr rule.correctedValue,
            "Memory applied: Static correction for " ++ rule.field⟩] }
    else st

/-- Stage 2b: all static corrections in order. -/
def applyStatics (rules : List ValueCorrection) (st : PipeState) : PipeState :=
  rules.foldl applyStaticRule st

/-- Days in a month (for the strict ISO date validation `new Date` does). -/
def daysInMonth (y : Int) (m : Nat) : Nat :=
  if m = 1 ∨ m = 3 ∨ m = 5 ∨ m = 7 ∨ m = 8 ∨ m = 10 ∨ m = 12 then 31
  else if m = 4 ∨ m = 6 ∨ m = 9 ∨ m = 11 then 30
  else if (y % 4 = 0 ∧ ¬(y % 100 = 0)) ∨ y % 400 = 0 then 29
  else 28

/-- Civil date to days since the Unix epoch (Hinnant's algorithm); UTC
midnight, so millisecond differences are whole days. -/
def daysFromCivil (y : Int) (m d : Nat) : Int :=
  let y' : Int := if m ≤ 2 then y - 1 else y
  let era : Int := Int.fdiv y' 400
  let yoe : Int := y' - era * 400
  let mp : Nat := if 2 < m then m - 3 else m + 9
  let doy : Int := (((153 * mp + 2) / 5 + d - 1 : Nat) : Int)
  let doe : Int := yoe * 365 + Int.fdiv yoe 4 - Int.fdiv yoe 100 + doy
  era * 146097 + doe - 719468

/-- Numeric value of a digit character. -/
def digitVal (c : Char) : Nat := c.toNat - '0'.toNat

/-- Strict `YYYY-MM-DD` parsing with range validation, as `new Date` does for
ISO date strings; anything else is an invalid date.  (Lenient
engine-specific fallbacks for non-ISO strings are out of model; an invalid
`Date` fails every comparison in the matcher, which is the same observable
behavior as `none` here.) -/
def parseIsoDate (s : String) : Option Int :=
  match s.data with
  | [y1, y2, y3, y4, h1, m1, m2, h2, d1, d2] =>
    if y1.isDigit && y2.isDigit && y3.isDigit && y4.isDigit && h1 = '-' &&
       m1.isDigit && m2.isDigit && h2 = '-' && d1.isDigit && d2.isDigit then
      let y : Int := ((digitVal y1 * 1000 + digitVal y2 * 100 + digitVal y3 * 10 + digitVal y4 :
        Nat) : Int)
      let m := digitVal m1 * 10 + digitVal m2
      let d := digitVal d1 * 10 + digitVal d2
      if 1 ≤ m ∧ m ≤ 12 ∧ 1 ≤ d ∧ d ≤ daysInMonth y m then some (daysFromCivil y m d)
      else none
    else none
  | _ => none

/-- `split(sep)` on a character list (empty pieces preserved, as in JS). -/
def splitOnCharAux (sep : Char) : List Char → List Char → List String
  | [], acc => [⟨acc.reverse⟩]
  | c :: t, acc =>
    if c = sep then (⟨acc.reverse⟩ : String) :: splitOnCharAux sep t []
    else splitOnCharAux sep t (c :: acc)

/-- `parseDate`: a dotted `DD.MM.YYYY` is rearranged to ISO first. -/
def parseDateStr (s : String) : Option Int :=
  if s = "" then none
  else if containsSubstr s "." then
    match splitOnCharAux '.' s.data [] with
    | p0 :: p1 :: p2 :: _ => parseIsoDate (p2 ++ "-" ++ p1 ++ "-" ++ p0)
    | _ => none
  else parseIsoDate s

/-- `parseDate` applied to a dynamic field value (falsy reads give null). -/
def parseDateJs : JsVal → Option Int
  | .vstr s => parseDateStr s
  | _ => none

/-- Exact SKU match between any invoice item and any PO item
(`invItem.sku === poItem.sku`, so two nulls compare equal). -/
def skuAnyMatch (invItems poItems : List LineItem) : Bool :=
  poItems.any (fun pi => invItems.any (fun ii => decide (ii.sku = pi.sku)))

/-- Fuzzy match: equal quantity and unit price within 0.01. -/
def fuzzyAnyMatch (invItems poItems : List LineItem) : Bool :=
  poItems.any (fun pi => invItems.any (fun ii =>
    decide (|ii.unitPrice - pi.unitPrice| < 1 / 100) && decide (ii.qty = pi.qty)))

/-- The candidate loop: first same-vendor PO whose date parses, is on or
before the invoice date by strictly less than 60 days, and matches by exact
SKU or fuzzily. -/
def poLoop (invD : Int) (invItems : List LineItem) : List PurchaseOrder → Option PurchaseOrder
  | [] => none
  | po :: t =>
    match parseDateStr po.date with
    | none => poLoop invD invItems t
    | some poD =>
      if poD ≤ invD ∧ invD - poD < 60 then
        if skuAnyMatch invItems po.lineItems then some po
        else if fuzzyAnyMatch invItems po.lineItems then some po
        else poLoop invD invItems t
      else poLoop invD invItems t

/-- `findMatchingPOWithVendor`. -/
def findMatchingPOWithVendor (inv : InvoiceFields) (vendor : String) (refData : ReferenceData) :
    Option PurchaseOrder :=
  match parseDateJs inv.invoiceDate with
  | none => none
  | some invD =>
    poLoop invD inv.lineItems (refData.purchaseOrders.filter (fun po => decide (po.vendor = vendor)))

/-- Stage 3a: PO matching, only when the document has no PO number. -/
def applyPOStage (vendor : String) (refData : ReferenceData) (st : PipeState) : PipeState :=
  if jsFalsy st.fields.poNumber then
    match findMatchingPOWithVendor st.fields vendor refData with
    | some po =>
      { st with
        fields := { st.fields with poNumber := JsVal.vstr po.poNumber },
        corrections := st.corrections ++
          [⟨"poNumber", JsVal.vnull, JsVal.vstr po.poNumber,
            "Heuristic: Found matching PO based on vendor and line items."⟩] }
    | none => st
  else st

/-- A decimal-literal string as a number (`Number(s)` restricted to the plain
decimal forms; `""` is 0). -/
def strToNum (s : String) : Option ℚ :=
  let t := jsTrimList s.data
  if t = [] then some 0
  else
    let sgnT : ℚ × List Char :=
      match t with
      | '-' :: r => (-1, r)
      | '+' :: r => (1, r)
      | _ => (1, t)
    match parseNatL sgnT.2 with
    | some (n, []) => some (sgnT.1 * n)
    | some (n, '.' :: fr) =>
      match parseNatL fr with
      | some (f, []) => some (sgnT.1 * ((n : ℚ) + (f : ℚ) / 10 ^ fr.length))
      | _ => none
    | _ => none

/-- JS numeric coercion of a field value; `none` plays the role of `NaN`
(every comparison with it is false). -/
def toNum : JsVal → Option ℚ
  | .vnum q => some q
  | .vnull => some 0
  | .vundef => none
  | .vstr s => strToNum s
  | .varr => none

/-- `Number(x.toFixed(2))`. -/
def round2 (q : ℚ) : ℚ := ((round (q * 100) : Int) : ℚ) / 100

/-- Case-insensitive check for the inclusive-VAT markers in the raw text. -/
def inclVatText (rawText : String) : Bool :=
  containsSubstr (lowerStr rawText) "incl. vat" || containsSubstr (lowerStr rawText) "mwst. inkl"

/-- Is the (possibly NaN) difference above the 1.0 tolerance? -/
def optDiffGt1 : Option ℚ → Bool
  | some d => decide (1 < d)
  | none => false

/-- `|Net + Tax - Gross|`. -/
def taxSumDiff (f : InvoiceFields) : Option ℚ :=
  match toNum f.netTotal, toNum f.taxTotal, toNum f.grossTotal with
  | some n, some t, some g => some |n + t - g|
  | _, _, _ => none

/-- `|Net * (1 + Rate) - Gross|`. -/
def taxCalcDiff (f : InvoiceFields) : Option ℚ :=
  match toNum f.netTotal, toNum f.taxRate, toNum f.grossTotal with
  | some n, some r, some g => some |n * (1 + r) - g|
  | _, _, _ => none

/-- Stage 3b, check 1: do the extracted parts sum up?  Flags review. -/
def taxSumStage (st : PipeState) : PipeState :=
  if optDiffGt1 (taxSumDiff st.fields) then
    { st with review := true,
              reasoning := st.reasoning ++ "Totals do not sum up (Net + Tax != Gross). " }
  else st

/-- Stage 3b, check 2: does Net·(1+Rate) match Gross?  On mismatch, either
recalculate Net/Tax from Gross under an inclusive-VAT hypothesis or flag
review.  (At `rate = -1` the source would produce an infinite Net; no claim
input reaches that corner and `ℚ` division by zero yields 0.) -/
def taxCalcStage (rawText : String) (st1 : PipeState) : PipeState :=
  if optDiffGt1 (taxCalcDiff st1.fields) then
    if inclVatText rawText then
      match toNum st1.fields.grossTotal, toNum st1.fields.taxRate with
      | some g, some r =>
        let newNet := round2 (g / (1 + r))
        let newTax := round2 (g - newNet)
        { st1 with
          fields := { st1.fields with netTotal := JsVal.vnum newNet,
                                      taxTotal := JsVal.vnum newTax },
          corrections := st1.corrections ++
            [⟨"netTotal", st1.fields.netTotal, JsVal.vnum newNet,
              "Detected \x27incl. VAT\x27 context, recalculated Net from Gross"⟩,
             ⟨"taxTotal", st1.fields.taxTotal, JsVal.vnum newTax,
              "Recalculated Tax from Gross"⟩] }
      | _, _ => st1
    else
      { st1 with review := true,
                 reasoning := st1.reasoning ++ "Tax calculation invalid (Net * Rate != Gross). " }
  else st1

/-- Stage 3b: the sum check, then the calc check on its result (`st1` in the
source). -/
def taxStage (rawText : String) (st : PipeState) : PipeState :=
  taxCalcStage rawText (taxSumStage st)

/-- The processing result. -/
structure ProcessResult where
  normalizedInvoice : InvoiceFields
  proposedCorrections : List Correction
  requiresHumanReview : Bool
  reasoning : String
  confidenceScore : ℚ
  memoryUpdates : List String
  auditTrail : List AuditEntry
deriving DecidableEq, Repr

/-- Two-decimal rendering for the audit line (`score.toFixed(2)`). -/
def ratToFixed2 (q : ℚ) : String :=
  let n : Int := round (q * 100)
  let sign := if n < 0 then "-" else ""
  let m := n.natAbs
  sign ++ toString (m / 100) ++ "." ++ (if m % 100 < 10 then "0" else "") ++ toString (m % 100)

/-- Stage 4: scoring and the review decision. -/
def finalize (now : String) (conf : ℚ) (st : PipeState) : ProcessResult :=
  let boosted := if st.corrections = [] then conf else conf + 1 / 10
  let reason1 :=
    if st.corrections = [] then st.reasoning
    else st.reasoning ++ "Applied corrections based on memory/heuristics. "
  let score := min (99 / 100) boosted
  let missing := jsFalsy st.fields.invoiceNumber || jsFalsy st.fields.invoiceDate ||
    jsFalsy st.fields.currency
  let review1 := st.review || missing
  let reason2 := if missing then reason1 ++ "Critical fields missing. " else reason1
  let review2 := review1 || decide (score < 8 / 10)
  { normalizedInvoice := st.fields,
    proposedCorrections := st.corrections,
    requiresHumanReview := review2,
    reasoning := jsTrim reason2,
    confidenceScore := score,
    memoryUpdates := [],
    auditTrail := st.audit ++
      [⟨"decide", now, "Review: " ++ (if review2 then "true" else "false") ++ ", Score: " ++
        ratToFixed2 score⟩] }

/-- The duplicate predicate: same vendor and invoice number, different id. -/
def isDuplicateOf (invoice past : Invoice) : Bool :=
  decide (past.vendor = invoice.vendor ∧
    past.fields.invoiceNumber = invoice.fields.invoiceNumber ∧
    past.invoiceId ≠ invoice.invoiceId)

/-- The initial pipeline state (step 1's recall audit entry included). -/
def initState (now : String) (invoice : Invoice) : PipeState :=
  ⟨invoice.fields, [], false, "", [⟨"recall", now, "Loaded memory for " ++ invoice.vendor⟩]⟩

/-- The non-duplicate part of `process`: stages 2a, 2b, 3a, 3b, 4 in order. -/
def processPipeline (store : MemoryStoreData) (now : String) (invoice : Invoice)
    (referenceData : ReferenceData) : ProcessResult :=
  finalize now invoice.confidence
    (taxStage invoice.rawText
      (applyPOStage invoice.vendor referenceData
        (applyStatics (getVendorMemory store invoice.vendor).staticCorrections
          (applyPatterns invoice.rawText now (getVendorMemory store invoice.vendor).patterns
            (initState now invoice)))))

/-- `MemoryAgent.process`. -/
def process (store : MemoryStoreData) (now : String) (invoice : Invoice)
    (referenceData : ReferenceData) (pastInvoices : List Invoice) : ProcessResult :=
  match pastInvoices.find? (isDuplicateOf invoice) with
  | some dup =>
    { normalizedInvoice := invoice.fields,
      proposedCorrections := [⟨"invoiceNumber", invoice.fields.invoiceNumber,
        JsVal.vstr "DUPLICATE-FLAG", "Duplicate submission detected"⟩],
      requiresHumanReview := true,
      reasoning := jsTrim ("Potential duplicate of invoice " ++ dup.invoiceId ++ ". "),
      confidenceScore := 0,
      memoryUpdates := [],
      auditTrail := [⟨"recall", now, "Loaded memory for " ++ invoice.vendor⟩,
        ⟨"decide", now, "Flagged as duplicate."⟩] }
  | none => processPipeline store now invoice referenceData

/-! ## Declarative reformulations used in theorem statements -/

/-- The acceptance test of the PO loop as one predicate: a parseable PO date
on or before the invoice date by strictly less than 60 days, plus an
exact-SKU or fuzzy line-item match. -/
def poAcceptB (invD : Int) (invItems : List LineItem) (po : PurchaseOrder) : Bool :=
  match parseDateStr po.date with
  | none => false
  | some poD =>
    decide (poD ≤ invD ∧ invD - poD < 60) &&
    (skuAnyMatch invItems po.lineItems || fuzzyAnyMatch invItems po.lineItems)

/-- A pattern row with the given upsert key is present for the vendor. -/
def patKeyPresent (d : MemoryStoreData) (vendor field regex : String) : Prop :=
  ∃ q ∈ (getVendorMemory d vendor).patterns, q.field = field ∧ q.regexPattern = regex

/-! ## Concrete instances for witnesses and counterexamples -/

/-- The empty store. -/
def emptyStore : MemoryStoreData := ⟨[]⟩

/-- Empty reference data. -/
def refEmpty : ReferenceData := ⟨[], []⟩

/-- A well-formed invoice field set used as the base of the examples. -/
def exFieldsA : InvoiceFields :=
  { invoiceNumber := .vstr "INV-A-001", invoiceDate := .vstr "2024-01-10",
    serviceDate := .vnull, currency := .vstr "EUR", poNumber := .vstr "PO-77",
    netTotal := .vnum 100, taxRate := .vnum (19 / 100), taxTotal := .vnum 19,
    grossTotal := .vnum 119, lineItems := [], discountTerms := .vnull, extra := [] }

/-- First invoice of the pattern-learning scenario (missing service date). -/
def exInvA : Invoice :=
  { invoiceId := "A1", vendor := "Supplier GmbH", fields := exFieldsA,
    confidence := 9 / 10, rawText := "Rechnung\nLeistungsdatum: 01.01.2024\nBetrag: 119 EUR" }

/-- The human correction fixing the service date on `exInvA`. -/
def exLogA : HumanCorrectionLog :=
  { invoiceId := "A1", vendor := "Supplier GmbH",
    corrections := [⟨"serviceDate", .vnull, .vstr "2024-01-01", "fix"⟩],
    finalDecision := .approved }

/-- The store after learning from that correction. -/
def exStoreA : MemoryStoreData := learn emptyStore "T1" exInvA exLogA

/-- Second same-vendor invoice, again missing the service date. -/
def exInvA2 : Invoice :=
  { invoiceId := "A2", vendor := "Supplier GmbH",
    fields := { exFieldsA with
      invoiceNumber := .vstr "INV-A-002", invoiceDate := .vstr "2024-01-20" },
    confidence := 9 / 10, rawText := "Rechnung\nLeistungsdatum: 05.01.2024\nBetrag: 119 EUR" }

/-- A past invoice sharing vendor and invoice number with `exInvA` under a
different id. -/
def exDupPast : Invoice := { exInvA with invoiceId := "D2" }

/-- Tax scenario: Net mistakenly equals Gross, inclusive-VAT text present. -/
def exInvB : Invoice :=
  { invoiceId := "B1", vendor := "Parts AG",
    fields := { exFieldsA with
      invoiceNumber := .vstr "INV-B-001", netTotal := .vnum 119,
      taxTotal := .vnum 0, grossTotal := .vnum 119 },
    confidence := 9 / 10, rawText := "Total 119.00 incl. VAT" }

/-- Tax scenario where the sum check also fails (Net = 200). -/
def exInvB2 : Invoice :=
  { invoiceId := "B2", vendor := "Parts AG",
    fields := { exFieldsA with
      invoiceNumber := .vstr "INV-B-002", netTotal := .vnum 200,
      taxTotal := .vnum 0, grossTotal := .vnum 119 },
    confidence := 9 / 10, rawText := "Total 119.00 incl. VAT" }

/-- SKU scenario: the original invoice whose item 0 is described
"Seefracht" with no SKU.  The raw text does not contain the corrected SKU,
so no extraction pattern is induced. -/
def exInvC : Invoice :=
  { invoiceId := "C2", vendor := "Freight Co",
    fields := { exFieldsA with
      invoiceNumber := .vstr "INV-C-002", lineItems := [⟨none, some "Seefracht", 1, 500⟩] },
    confidence := 9 / 10, rawText := "Rechnung Seefracht 500 EUR" }

/-- The human correction setting item 0's SKU to FREIGHT. -/
def exLogC : HumanCorrectionLog :=
  ⟨"C2", "Freight Co", [⟨"lineItems[0].sku", .vnull, .vstr "FREIGHT", "fix"⟩], .approved⟩

/-- The store after learning the SKU mapping. -/
def exStoreC : MemoryStoreData := learn emptyStore "T1" exInvC exLogC

/-- A later same-vendor invoice with a "Seefracht Hamburg" item without SKU. -/
def exInvC3 : Invoice :=
  { invoiceId := "C3", vendor := "Freight Co",
    fields := { exFieldsA with
      invoiceNumber := .vstr "INV-C-003",
      lineItems := [⟨none, some "Seefracht Hamburg", 2, 700⟩, ⟨some "X1", some "Zoll", 1, 50⟩] },
    confidence := 9 / 10, rawText := "Rechnung" }

/-- A PO ten days before the invoice date sharing SKU S1 (unit price 10,
differing from the invoice's 99). -/
def exPoGood : PurchaseOrder :=
  ⟨"PO-10", "Supplier GmbH", "2024-01-10", [⟨some "S1", none, 5, 10⟩]⟩

/-- A PO eighty days before the invoice date sharing the same SKU. -/
def exPoOld : PurchaseOrder :=
  ⟨"PO-70", "Supplier GmbH", "2023-11-01", [⟨some "S1", none, 5, 10⟩]⟩

/-- An invoice with no PO number, dotted date, and SKU S1 at price 99. -/
def exInvP : Invoice :=
  { invoiceId := "P1", vendor := "Supplier GmbH",
    fields := { exFieldsA with
      poNumber := .vnull, invoiceDate := .vstr "20.01.2024",
      lineItems := [⟨some "S1", none, 5, 99⟩] },
    confidence := 9 / 10, rawText := "text" }

/-- Reference data holding the old PO before the good one. -/
def exRefP : ReferenceData := ⟨[exPoOld, exPoGood], []⟩

/-- A stored pattern whose field path is bracketed. -/
def exPatS : ExtractionPattern := ⟨"lineItems[0].sku", "SKU:?\\s*(\\d{3})", 6 / 10, 1, "T0"⟩

/-- A store holding only that bracketed-path pattern. -/
def exStoreS : MemoryStoreData := ⟨[("Supplier S", ⟨"Supplier S", [exPatS], []⟩)]⟩

/-- An invoice whose item 0 already has the nonempty SKU "ABC" while the raw
text matches the stored bracketed-path pattern. -/
def exInvS : Invoice :=
  { invoiceId := "S1", vendor := "Supplier S",
    fields := { exFieldsA with lineItems := [⟨some "ABC", some "Widget", 1, 10⟩] },
    confidence := 9 / 10, rawText := "SKU: 123" }

/-- First same-vendor PO in the window, with a null-SKU line item. -/
def exPoN1 : PurchaseOrder := ⟨"PO-N1", "V", "2024-01-10", [⟨none, none, 1, 1⟩]⟩

/-- Second same-vendor PO in the window, also with a null-SKU line item. -/
def exPoN2 : PurchaseOrder := ⟨"PO-N2", "V", "2024-01-12", [⟨none, none, 7, 7⟩]⟩

/-- An invoice with a null-SKU line item and no PO number. -/
def exInvN : Invoice :=
  { invoiceId := "N1", vendor := "V",
    fields := { exFieldsA with
      poNumber := .vnull, invoiceDate := .vstr "2024-01-20",
      lineItems := [⟨none, some "x", 99, 123⟩] },
    confidence := 9 / 10, rawText := "text" }

/-- Reference data holding both null-SKU POs, `exPoN1` first. -/
def exRefN : ReferenceData := ⟨[exPoN1, exPoN2], []⟩

/-- A pattern used to exercise the store upsert. -/
def exPat6 : ExtractionPattern := ⟨"serviceDate", "Datum:?\\s*(\\d{2})", 6 / 10, 1, "T1"⟩

/-- A static correction used to exercise the store upsert. -/
def exStat6 : ValueCorrection := ⟨"lineItems.sku", some "Seefracht", "FREIGHT", none, 8 / 10, 1⟩

/-! ## Helper lemmas -/

theorem lookup_setAssoc_self {α : Type} (l : List (String × α)) (k : String) (v : α) :
    (setAssoc l k v).lookup k = some v := by
  induction l with
  | nil => simp [setAssoc, List.lookup]
  | cons h t ih =>
    obtain ⟨k0, v0⟩ := h
    by_cases hk : k0 = k
    · subst hk
      simp [setAssoc, List.lookup]
    · have hb : (k == k0) = false := beq_eq_false_iff_ne.2 (Ne.symm hk)
      simp only [setAssoc, if_neg hk, List.lookup, hb]
      exact ih

theorem lookup_setAssoc_ne {α : Type} (l : List (String × α)) (k k' : String) (v : α)
    (h : k ≠ k') : (setAssoc l k v).lookup k' = l.lookup k' := by
  have hb : (k' == k) = false := beq_eq_false_iff_ne.2 (Ne.symm h)
  induction l with
  | nil => simp [setAssoc, List.lookup, hb]
  | cons hd t ih =>
    obtain ⟨k0, v0⟩ := hd
    by_cases hk : k0 = k
    · subst hk
      simp [setAssoc, List.lookup, hb]
    · simp only [setAssoc, if_neg hk, List.lookup]
      cases hkk : (k' == k0) <;> simp [ih]

theorem getVendorMemory_setVendor_self (d : MemoryStoreData) (v : String) (m : VendorMemory) :
    getVendorMemory (setVendor d v m) v = m := by
  simp [getVendorMemory, setVendor, lookup_setAssoc_self]

theorem getVendorMemory_addPattern (d : MemoryStoreData) (v : String) (p : ExtractionPattern)
    (now : String) :
    getVendorMemory (addPattern d v p now) v =
      { getVendorMemory d v with patterns := upsertPattern (getVendorMemory d v).patterns p now } := by
  simp [addPattern, getVendorMemory_setVendor_self]

theorem getVendorMemory_addStatic (d : MemoryStoreData) (v : String) (c : ValueCorrection) :
    getVendorMemory (addStaticCorrection d v c) v =
      { getVendorMemory d v with
        staticCorrections := upsertStatic (getVendorMemory d v).staticCorrections c } := by
  simp [addStaticCorrection, getVendorMemory_setVendor_self]

theorem finalize_score (now : String) (conf : ℚ) (st : PipeState) :
    (finalize now conf st).confidenceScore =
      min (99 / 100)
        (conf + (if (finalize now conf st).proposedCorrections = [] then 0 else 1 / 10)) := by
  by_cases hc : st.corrections = [] <;> simp [finalize, hc]

theorem finalize_review_missing (now : String) (conf : ℚ) (st : PipeState)
    (h : (finalize now conf st).normalizedInvoice.invoiceNumber = JsVal.vnull ∨
      (finalize now conf st).normalizedInvoice.invoiceDate = JsVal.vnull ∨
      (finalize now conf st).normalizedInvoice.currency = JsVal.vnull) :
    (finalize now conf st).requiresHumanReview = true := by
  have hmiss : (jsFalsy st.fields.invoiceNumber || jsFalsy st.fields.invoiceDate ||
      jsFalsy st.fields.currency) = true := by
    simp only [finalize] at h
    rcases h with h | h | h <;> simp [h, jsFalsy, jsTruthy]
  simp [finalize, hmiss]

theorem finalize_review_low (now : String) (conf : ℚ) (st : PipeState)
    (h : (finalize now conf st).confidenceScore < 8 / 10) :
    (finalize now conf st).requiresHumanReview = true := by
  simp only [finalize] at h ⊢
  simp only [Bool.or_eq_true]
  right
  exact decide_eq_true h

theorem finalize_corrections (now : String) (conf : ℚ) (st : PipeState) :
    (finalize now conf st).proposedCorrections = st.corrections := rfl

theorem finalize_fields (now : String) (conf : ℚ) (st : PipeState) :
    (finalize now conf st).normalizedInvoice = st.fields := rfl

/-! ## C9: memoryUpdates is always empty -/

/-- C9: for every input invoice, reference data and pastInvoices list,
`process` returns an empty `memoryUpdates` list, on the duplicate path and on
the normal path alike. -/
theorem claim9_memory_updates_empty (store : MemoryStoreData) (now : String) (invoice : Invoice)
    (refData : ReferenceData) (past : List Invoice) :
    (process store now invoice refData past).memoryUpdates = [] := by
  unfold process
  cases h : past.find? (isDuplicateOf invoice) with
  | none => simp [processPipeline, finalize]
  | some d => simp

/-! ## C2: duplicate detection short-circuits -/

/-- C2: when `pastInvoices` contains an invoice with the same vendor and
invoice number but a different id, `process` returns review = true,
confidence 0.0, exactly one duplicate-flag Correction, an unchanged
normalized document (so no memory, PO, or tax step ran), and no memory
updates. -/
theorem claim2_duplicate_short_circuit (store : MemoryStoreData) (now : String)
    (invoice : Invoice) (refData : ReferenceData) (past : List Invoice) (p : Invoice)
    (hp : p ∈ past) (hv : p.vendor = invoice.vendor)
    (hn : p.fields.invoiceNumber = invoice.fields.invoiceNumber)
    (hi : p.invoiceId ≠ invoice.invoiceId) :
    (process store now invoice refData past).requiresHumanReview = true ∧
    (process store now invoice refData past).confidenceScore = 0 ∧
    (process store now invoice refData past).proposedCorrections =
      [⟨"invoiceNumber", invoice.fields.invoiceNumber, JsVal.vstr "DUPLICATE-FLAG",
        "Duplicate submission detected"⟩] ∧
    (process store now invoice refData past).normalizedInvoice = invoice.fields ∧
    (process store now invoice refData past).memoryUpdates = [] := by
  have hsome : (past.find? (isDuplicateOf invoice)).isSome := by
    refine List.find?_isSome.2 ⟨p, hp, ?_⟩
    simp [isDuplicateOf, hv, hn, hi]
  obtain ⟨d, hd⟩ := Option.isSome_iff_exists.1 hsome
  unfold process
  rw [hd]
  refine ⟨rfl, rfl, rfl, rfl, rfl⟩

/-- Witness for C2 at a concrete duplicate pair. -/
theorem claim2_witness :
    (process emptyStore "T" exInvA refEmpty [exDupPast]).requiresHumanReview = true ∧
    (process emptyStore "T" exInvA refEmpty [exDupPast]).confidenceScore = 0 ∧
    (process emptyStore "T" exInvA refEmpty [exDupPast]).proposedCorrections =
      [⟨"invoiceNumber", exInvA.fields.invoiceNumber, JsVal.vstr "DUPLICATE-FLAG",
        "Duplicate submission detected"⟩] ∧
    (process emptyStore "T" exInvA refEmpty [exDupPast]).normalizedInvoice = exInvA.fields ∧
    (process emptyStore "T" exInvA refEmpty [exDupPast]).memoryUpdates = [] :=
  claim2_duplicate_short_circuit emptyStore "T" exInvA refEmpty [exDupPast] exDupPast
    (by simp) rfl rfl (by decide)

/-! ## C8: scoring and review forcing -/

/-- C8: on the non-duplicate path the returned score is
`min(0.99, upstream + (0.10 if any Correction was proposed else 0))`, and
review is forced when invoice number / invoice date / currency is still null
on the normalized document, or when the final score is below 0.80. -/
theorem claim8_scoring_and_review (store : MemoryStoreData) (now : String) (invoice : Invoice)
    (refData : ReferenceData) (past : List Invoice)
    (hnd : past.find? (isDuplicateOf invoice) = none) :
    ((process store now invoice refData past).confidenceScore =
      min (99 / 100)
        (invoice.confidence +
          (if (process store now invoice refData past).proposedCorrections = [] then 0
           else 1 / 10))) ∧
    (((process store now invoice refData past).normalizedInvoice.invoiceNumber = JsVal.vnull ∨
      (process store now invoice refData past).normalizedInvoice.invoiceDate = JsVal.vnull ∨
      (process store now invoice refData past).normalizedInvoice.currency = JsVal.vnull) →
      (process store now invoice refData past).requiresHumanReview = true) ∧
    ((process store now invoice refData past).confidenceScore < 8 / 10 →
      (process store now invoice refData past).requiresHumanReview = true) := by
  unfold process
  rw [hnd]
  unfold processPipeline
  exact ⟨finalize_score _ _ _, finalize_review_missing _ _ _, finalize_review_low _ _ _⟩

/-- Witness for C8 at a concrete non-duplicate invoice. -/
theorem claim8_witness :
    ((process emptyStore "T" exInvB refEmpty []).confidenceScore =
      min (99 / 100)
        (exInvB.confidence +
          (if (process emptyStore "T" exInvB refEmpty []).proposedCorrections = [] then 0
           else 1 / 10))) ∧
    ((process emptyStore "T" exInvB refEmpty []).confidenceScore < 8 / 10 →
      (process emptyStore "T" exInvB refEmpty []).requiresHumanReview = true) :=
  ⟨(claim8_scoring_and_review emptyStore "T" exInvB refEmpty [] rfl).1,
   (claim8_scoring_and_review emptyStore "T" exInvB refEmpty [] rfl).2.2⟩

/-! ## C6: store upsert and confidence reinforcement -/

theorem upsertPattern_length (ps : List ExtractionPattern) (p : ExtractionPattern) (now : String) :
    (upsertPattern ps p now).length =
      if ∃ q ∈ ps, q.field = p.field ∧ q.regexPattern = p.regexPattern then ps.length
      else ps.length + 1 := by
  induction ps with
  | nil => simp [upsertPattern]
  | cons q t ih =>
    by_cases hq : q.field = p.field ∧ q.regexPattern = p.regexPattern
    · rw [if_pos ⟨q, List.mem_cons_self q t, hq⟩]
      simp [upsertPattern, if_pos hq]
    · by_cases ht : ∃ r ∈ t, r.field = p.field ∧ r.regexPattern = p.regexPattern
      · rw [if_pos]
        · simp only [upsertPattern, if_neg hq, List.length_cons, ih, if_pos ht]
        · obtain ⟨r, hr, hk⟩ := ht
          exact ⟨r, List.mem_cons_of_mem q hr, hk⟩
      · rw [if_neg]
        · simp only [upsertPattern, if_neg hq, List.length_cons, ih, if_neg ht]
        · rintro ⟨r, hr, hk⟩
          rcases List.mem_cons.1 hr with h | h
          · exact hq (h ▸ hk)
          · exact ht ⟨r, h, hk⟩

theorem upsertPattern_found (ps : List ExtractionPattern) (p : ExtractionPattern) (now : String)
    (q : ExtractionPattern)
    (h : ps.find? (fun r => decide (r.field = p.field ∧ r.regexPattern = p.regexPattern)) =
      some q) :
    reinforcedPattern q now ∈ upsertPattern ps p now := by
  induction ps with
  | nil => simp [List.find?] at h
  | cons r t ih =>
    by_cases hr : r.field = p.field ∧ r.regexPattern = p.regexPattern
    · have h' : r = q := by simpa [List.find?, decide_eq_true hr] using h
      subst h'
      simp [upsertPattern, if_pos hr]
    · have h' : t.find? (fun s => decide (s.field = p.field ∧ s.regexPattern = p.regexPattern)) =
          some q := by simpa [List.find?, decide_eq_false hr] using h
      simp only [upsertPattern, if_neg hr]
      exact List.mem_cons_of_mem r (ih h')

theorem upsertPattern_not_found (ps : List ExtractionPattern) (p : ExtractionPattern)
    (now : String)
    (h : ∀ q ∈ ps, ¬(q.field = p.field ∧ q.regexPattern = p.regexPattern)) :
    upsertPattern ps p now = ps ++ [p] := by
  induction ps with
  | nil => rfl
  | cons q t ih =>
    have hq := h q (List.mem_cons_self q t)
    simp only [upsertPattern, if_neg hq, List.cons_append, List.cons.injEq, true_and]
    exact ih (fun r hr => h r (List.mem_cons_of_mem q hr))

theorem upsertPattern_conf_le (ps : List ExtractionPattern) (p : ExtractionPattern)
    (now : String) (hp : p.confidence ≤ 1) (h : ∀ q ∈ ps, q.confidence ≤ 1) :
    ∀ q ∈ upsertPattern ps p now, q.confidence ≤ 1 := by
  induction ps with
  | nil =>
    intro q hq
    simp [upsertPattern] at hq
    exact hq ▸ hp
  | cons r t ih =>
    intro q hq
    by_cases hr : r.field = p.field ∧ r.regexPattern = p.regexPattern
    · simp only [upsertPattern, if_pos hr, List.mem_cons] at hq
      rcases hq with hq | hq
      · subst hq
        exact min_le_left 1 _
      · exact h q (List.mem_cons_of_mem r hq)
    · simp only [upsertPattern, if_neg hr, List.mem_cons] at hq
      rcases hq with hq | hq
      · exact hq ▸ h r (List.mem_cons_self r t)
      · exact ih (fun s hs => h s (List.mem_cons_of_mem r hs)) q hq

theorem upsertPattern_get?_mono (ps : List ExtractionPattern) (p : ExtractionPattern)
    (now : String) :
    ∀ i q, ps.get? i = some q → q.confidence ≤ 1 →
      ∃ q', (upsertPattern ps p now).get? i = some q' ∧ q.confidence ≤ q'.confidence := by
  induction ps with
  | nil => intro i q h; simp at h
  | cons r t ih =>
    intro i q hq hle
    by_cases hr : r.field = p.field ∧ r.regexPattern = p.regexPattern
    · cases i with
      | zero =>
        obtain rfl : r = q := Option.some.inj hq
        refine ⟨reinforcedPattern r now, by simp [upsertPattern, if_pos hr], ?_⟩
        exact le_min hle (by linarith)
      | succ j =>
        refine ⟨q, ?_, le_refl _⟩
        simpa [upsertPattern, if_pos hr] using hq
    · cases i with
      | zero =>
        obtain rfl : r = q := Option.some.inj hq
        exact ⟨r, by simp [upsertPattern, if_neg hr], le_refl _⟩
      | succ j =>
        obtain ⟨q', hq', hle'⟩ := ih j q (by simpa using hq) hle
        exact ⟨q', by simpa [upsertPattern, if_neg hr] using hq', hle'⟩

theorem upsertStatic_length (cs : List ValueCorrection) (c : ValueCorrection) :
    (upsertStatic cs c).length =
      if ∃ q ∈ cs, q.field = c.field ∧ q.triggerValue = c.triggerValue ∧
          q.correctedValue = c.correctedValue then cs.length
      else cs.length + 1 := by
  induction cs with
  | nil => simp [upsertStatic]
  | cons q t ih =>
    by_cases hq : q.field = c.field ∧ q.triggerValue = c.triggerValue ∧
        q.correctedValue = c.correctedValue
    · rw [if_pos ⟨q, List.mem_cons_self q t, hq⟩]
      simp [upsertStatic, if_pos hq]
    · by_cases ht : ∃ r ∈ t, r.field = c.field ∧ r.triggerValue = c.triggerValue ∧
          r.correctedValue = c.correctedValue
      · rw [if_pos]
        · simp only [upsertStatic, if_neg hq, List.length_cons, ih, if_pos ht]
        · obtain ⟨r, hr, hk⟩ := ht
          exact ⟨r, List.mem_cons_of_mem q hr, hk⟩
      · rw [if_neg]
        · simp only [upsertStatic, if_neg hq, List.length_cons, ih, if_neg ht]
        · rintro ⟨r, hr, hk⟩
          rcases List.mem_cons.1 hr with h | h
          · exact hq (h ▸ hk)
          · exact ht ⟨r, h, hk⟩

theorem upsertStatic_found (cs : List ValueCorrection) (c : ValueCorrection)
    (q : ValueCorrection)
    (h : cs.find? (fun r => decide (r.field = c.field ∧ r.triggerValue = c.triggerValue ∧
      r.correctedValue = c.correctedValue)) = some q) :
    reinforcedStatic q ∈ upsertStatic cs c := by
  induction cs with
  | nil => simp [List.find?] at h
  | cons r t ih =>
    by_cases hr : r.field = c.field ∧ r.triggerValue = c.triggerValue ∧
        r.correctedValue = c.correctedValue
    · have h' : r = q := by simpa [List.find?, decide_eq_true hr] using h
      subst h'
      simp [upsertStatic, if_pos hr]
    · have h' : t.find? (fun s => decide (s.field = c.field ∧ s.triggerValue = c.triggerValue ∧
          s.correctedValue = c.correctedValue)) = some q := by
        simpa [List.find?, decide_eq_false hr] using h
      simp only [upsertStatic, if_neg hr]
      exact List.mem_cons_of_mem r (ih h')

theorem upsertStatic_not_found (cs : List ValueCorrection) (c : ValueCorrection)
    (h : ∀ q ∈ cs, ¬(q.field = c.field ∧ q.triggerValue = c.triggerValue ∧
      q.correctedValue = c.correctedValue)) :
    upsertStatic cs c = cs ++ [c] := by
  induction cs with
  | nil => rfl
  | cons q t ih =>
    have hq := h q (List.mem_cons_self q t)
    simp only [upsertStatic, if_neg hq, List.cons_append, List.cons.injEq, true_and]
    exact ih (fun r hr => h r (List.mem_cons_of_mem q hr))

theorem upsertStatic_conf_le (cs : List ValueCorrection) (c : ValueCorrection)
    (hc : c.confidence ≤ 1) (h : ∀ q ∈ cs, q.confidence ≤ 1) :
    ∀ q ∈ upsertStatic cs c, q.confidence ≤ 1 := by
  induction cs with
  | nil =>
    intro q hq
    simp [upsertStatic] at hq
    exact hq ▸ hc
  | cons r t ih =>
    intro q hq
    by_cases hr : r.field = c.field ∧ r.triggerValue = c.triggerValue ∧
        r.correctedValue = c.correctedValue
    · simp only [upsertStatic, if_pos hr, List.mem_cons] at hq
      rcases hq with hq | hq
      · subst hq
        exact min_le_left 1 _
      · exact h q (List.mem_cons_of_mem r hq)
    · simp only [upsertStatic, if_neg hr, List.mem_cons] at hq
      rcases hq with hq | hq
      · exact hq ▸ h r (List.mem_cons_self r t)
      · exact ih (fun s hs => h s (List.mem_cons_of_mem r hs)) q hq

theorem upsertStatic_get?_mono (cs : List ValueCorrection) (c : ValueCorrection) :
    ∀ i q, cs.get? i = some q → q.confidence ≤ 1 →
      ∃ q', (upsertStatic cs c).get? i = some q' ∧ q.confidence ≤ q'.confidence := by
  induction cs with
  | nil => intro i q h; simp at h
  | cons r t ih =>
    intro i q hq hle
    by_cases hr : r.field = c.field ∧ r.triggerValue = c.triggerValue ∧
        r.correctedValue = c.correctedValue
    · cases i with
      | zero =>
        obtain rfl : r = q := Option.some.inj hq
        refine ⟨reinforcedStatic r, by simp [upsertStatic, if_pos hr], ?_⟩
        exact le_min hle (by linarith)
      | succ j =>
        refine ⟨q, ?_, le_refl _⟩
        simpa [upsertStatic, if_pos hr] using hq
    · cases i with
      | zero =>
        obtain rfl : r = q := Option.some.inj hq
        exact ⟨r, by simp [upsertStatic, if_neg hr], le_refl _⟩
      | succ j =>
        obtain ⟨q', hq', hle'⟩ := ih j q (by simpa using hq) hle
        exact ⟨q', by simpa [upsertStatic, if_neg hr] using hq', hle'⟩

/-- C6: `addPattern` upserts by (vendor, field, regexPattern) and
`addStaticCorrection` by (vendor, field, triggerValue, correctedValue): on an
existing key the first matching row gets usageCount + 1 and confidence
`min(1.0, confidence + 0.05)` without a second row being created; on a
missing key the row is appended.  Stored confidences stay ≤ 1.0 and no
row's confidence ever decreases under either operation. -/
theorem claim6_store_upsert_reinforcement (d : MemoryStoreData) (vendor : String)
    (p : ExtractionPattern) (c : ValueCorrection) (now : String) :
    ((getVendorMemory (addPattern d vendor p now) vendor).patterns.length =
      if ∃ q ∈ (getVendorMemory d vendor).patterns,
          q.field = p.field ∧ q.regexPattern = p.regexPattern
       then (getVendorMemory d vendor).patterns.length
       else (getVendorMemory d vendor).patterns.length + 1) ∧
    (∀ q, (getVendorMemory d vendor).patterns.find?
        (fun r => decide (r.field = p.field ∧ r.regexPattern = p.regexPattern)) = some q →
      reinforcedPattern q now ∈ (getVendorMemory (addPattern d vendor p now) vendor).patterns) ∧
    ((∀ q ∈ (getVendorMemory d vendor).patterns,
        ¬(q.field = p.field ∧ q.regexPattern = p.regexPattern)) →
      (getVendorMemory (addPattern d vendor p now) vendor).patterns =
        (getVendorMemory d vendor).patterns ++ [p]) ∧
    ((∀ q ∈ (getVendorMemory d vendor).patterns, q.confidence ≤ 1) → p.confidence ≤ 1 →
      ∀ q ∈ (getVendorMemory (addPattern d vendor p now) vendor).patterns,
        q.confidence ≤ 1) ∧
    (∀ i q, (getVendorMemory d vendor).patterns.get? i = some q → q.confidence ≤ 1 →
      ∃ q', (getVendorMemory (addPattern d vendor p now) vendor).patterns.get? i = some q' ∧
        q.confidence ≤ q'.confidence) ∧
    ((getVendorMemory (addStaticCorrection d vendor c) vendor).staticCorrections.length =
      if ∃ q ∈ (getVendorMemory d vendor).staticCorrections,
          q.field = c.field ∧ q.triggerValue = c.triggerValue ∧
          q.correctedValue = c.correctedValue
       then (getVendorMemory d vendor).staticCorrections.length
       else (getVendorMemory d vendor).staticCorrections.length + 1) ∧
    (∀ q, (getVendorMemory d vendor).staticCorrections.find?
        (fun r => decide (r.field = c.field ∧ r.triggerValue = c.triggerValue ∧
          r.correctedValue = c.correctedValue)) = some q →
      reinforcedStatic q ∈
        (getVendorMemory (addStaticCorrection d vendor c) vendor).staticCorrections) ∧
    ((∀ q ∈ (getVendorMemory d vendor).staticCorrections,
        ¬(q.field = c.field ∧ q.triggerValue = c.triggerValue ∧
          q.correctedValue = c.correctedValue)) →
      (getVendorMemory (addStaticCorrection d vendor c) vendor).staticCorrections =
        (getVendorMemory d vendor).staticCorrections ++ [c]) ∧
    ((∀ q ∈ (getVendorMemory d vendor).staticCorrections, q.confidence ≤ 1) →
      c.confidence ≤ 1 →
      ∀ q ∈ (getVendorMemory (addStaticCorrection d vendor c) vendor).staticCorrections,
        q.confidence ≤ 1) ∧
    (∀ i q, (getVendorMemory d vendor).staticCorrections.get? i = some q →
      q.confidence ≤ 1 →
      ∃ q', (getVendorMemory (addStaticCorrection d vendor c) vendor).staticCorrections.get? i =
        some q' ∧ q.confidence ≤ q'.confidence) := by
  rw [getVendorMemory_addPattern, getVendorMemory_addStatic]
  refine ⟨upsertPattern_length _ _ _, fun q hq => upsertPattern_found _ _ _ q hq,
    upsertPattern_not_found _ _ _, fun h hp => upsertPattern_conf_le _ _ _ hp h,
    fun i q h hle => upsertPattern_get?_mono _ _ _ i q h hle,
    upsertStatic_length _ _, fun q hq => upsertStatic_found _ _ q hq,
    upsertStatic_not_found _ _, fun h hc => upsertStatic_conf_le _ _ hc h,
    fun i q h hle => upsertStatic_get?_mono _ _ i q h hle⟩

/-- Witness for C6: inserting a fresh pattern adds one row; re-adding the
identical pattern reinforces that one row instead of creating a second. -/
theorem claim6_witness :
    (getVendorMemory (addPattern emptyStore "V" exPat6 "T1") "V").patterns = [exPat6] ∧
    reinforcedPattern exPat6 "T2" ∈
      (getVendorMemory (addPattern (addPattern emptyStore "V" exPat6 "T1") "V" exPat6 "T2")
        "V").patterns ∧
    (getVendorMemory (addPattern (addPattern emptyStore "V" exPat6 "T1") "V" exPat6 "T2")
        "V").patterns.length = 1 := by
  have hempty : (getVendorMemory emptyStore "V").patterns = [] := rfl
  have ha : (getVendorMemory (addPattern emptyStore "V" exPat6 "T1") "V").patterns =
      [exPat6] := by
    have := (claim6_store_upsert_reinforcement emptyStore "V" exPat6 exStat6 "T1").2.2.1
      (by rw [hempty]; intro q hq; simp at hq)
    rw [hempty] at this
    simpa using this
  refine ⟨ha, ?_, ?_⟩
  · refine (claim6_store_upsert_reinforcement (addPattern emptyStore "V" exPat6 "T1")
      "V" exPat6 exStat6 "T2").2.1 exPat6 ?_
    rw [ha]
    exact List.find?_cons_of_pos _ (by simp)
  · have := (claim6_store_upsert_reinforcement (addPattern emptyStore "V" exPat6 "T1")
      "V" exPat6 exStat6 "T2").1
    rw [ha] at this
    rw [this, if_pos ⟨exPat6, List.mem_cons_self _ _, rfl, rfl⟩]
    rfl

/-! ## C7: patterns never overwrite -/

theorem setFieldValue_invoiceNumber_ne (f : InvoiceFields) (g : String) (v : JsVal)
    (h : g ≠ "invoiceNumber") : (setFieldValue f g v).invoiceNumber = f.invoiceNumber := by
  unfold setFieldValue
  by_cases g0 : containsSubstr g "[" = true
  · rw [if_pos g0]
  · rw [if_neg g0]
    by_cases g1 : g = "invoiceNumber"
    · exact absurd g1 h
    · rw [if_neg g1]
      by_cases g2 : g = "invoiceDate"
      · rw [if_pos g2]
      · rw [if_neg g2]
        by_cases g3 : g = "serviceDate"
        · rw [if_pos g3]
        · rw [if_neg g3]
          by_cases g4 : g = "currency"
          · rw [if_pos g4]
          · rw [if_neg g4]
            by_cases g5 : g = "poNumber"
            · rw [if_pos g5]
            · rw [if_neg g5]
              by_cases g6 : g = "netTotal"
              · rw [if_pos g6]
              · rw [if_neg g6]
                by_cases g7 : g = "taxRate"
                · rw [if_pos g7]
                · rw [if_neg g7]
                  by_cases g8 : g = "taxTotal"
                  · rw [if_pos g8]
                  · rw [if_neg g8]
                    by_cases g9 : g = "grossTotal"
                    · rw [if_pos g9]
                    · rw [if_neg g9]
                      by_cases g10 : g = "discountTerms"
                      · rw [if_pos g10]
                      · rw [if_neg g10]
                        by_cases g11 : g = "lineItems"
                        · rw [if_pos g11]
                        · rw [if_neg g11]

theorem setFieldValue_invoiceDate_ne (f : InvoiceFields) (g : String) (v : JsVal)
    (h : g ≠ "invoiceDate") : (setFieldValue f g v).invoiceDate = f.invoiceDate := by
  unfold setFieldValue
  by_cases g0 : containsSubstr g "[" = true
  · rw [if_pos g0]
  · rw [if_neg g0]
    by_cases g1 : g = "invoiceNumber"
    · rw [if_pos g1]
    · rw [if_neg g1]
      by_cases g2 : g = "invoiceDate"
      · exact absurd g2 h
      · rw [if_neg g2]
        by_cases g3 : g = "serviceDate"
        · rw [if_pos g3]
        · rw [if_neg g3]
          by_cases g4 : g = "currency"
          · rw [if_pos g4]
          · rw [if_neg g4]
            by_cases g5 : g = "poNumber"
            · rw [if_pos g5]
            · rw [if_neg g5]
              by_cases g6 : g = "netTotal"
              · rw [if_pos g6]
              · rw [if_neg g6]
                by_cases g7 : g = "taxRate"
                · rw [if_pos g7]
                · rw [if_neg g7]
                  by_cases g8 : g = "taxTotal"
                  · rw [if_pos g8]
                  · rw [if_neg g8]
                    by_cases g9 : g = "grossTotal"
                    · rw [if_pos g9]
                    · rw [if_neg g9]
                      by_cases g10 : g = "discountTerms"
                      · rw [if_pos g10]
                      · rw [if_neg g10]
                        by_cases g11 : g = "lineItems"
                        · rw [if_pos g11]
                        · rw [if_neg g11]

theorem setFieldValue_serviceDate_ne (f : InvoiceFields) (g : String) (v : JsVal)
    (h : g ≠ "serviceDate") : (setFieldValue f g v).serviceDate = f.serviceDate := by
  unfold setFieldValue
  by_cases g0 : containsSubstr g "[" = true
  · rw [if_pos g0]
  · rw [if_neg g0]
    by_cases g1 : g = "invoiceNumber"
    · rw [if_pos g1]
    · rw [if_neg g1]
      by_cases g2 : g = "invoiceDate"
      · rw [if_pos g2]
      · rw [if_neg g2]
        by_cases g3 : g = "serviceDate"
        · exact absurd g3 h
        · rw [if_neg g3]
          by_cases g4 : g = "currency"
          · rw [if_pos g4]
          · rw [if_neg g4]
            by_cases g5 : g = "poNumber"
            · rw [if_pos g5]
            · rw [if_neg g5]
              by_cases g6 : g = "netTotal"
              · rw [if_pos g6]
              · rw [if_neg g6]
                by_cases g7 : g = "taxRate"
                · rw [if_pos g7]
                · rw [if_neg g7]
                  by_cases g8 : g = "taxTotal"
                  · rw [if_pos g8]
                  · rw [if_neg g8]
                    by_cases g9 : g = "grossTotal"
                    · rw [if_pos g9]
                    · rw [if_neg g9]
                      by_cases g10 : g = "discountTerms"
                      · rw [if_pos g10]
                      · rw [if_neg g10]
                        by_cases g11 : g = "lineItems"
                        · rw [if_pos g11]
                        · rw [if_neg g11]

theorem setFieldValue_currency_ne (f : InvoiceFields) (g : String) (v : JsVal)
    (h : g ≠ "currency") : (setFieldValue f g v).currency = f.currency := by
  unfold setFieldValue
  by_cases g0 : containsSubstr g "[" = true
  · rw [if_pos g0]
  · rw [if_neg g0]
    by_cases g1 : g = "invoiceNumber"
    · rw [if_pos g1]
    · rw [if_neg g1]
      by_cases g2 : g = "invoiceDate"
      · rw [if_pos g2]
      · rw [if_neg g2]
        by_cases g3 : g = "serviceDate"
        · rw [if_pos g3]
        · rw [if_neg g3]
          by_cases g4 : g = "currency"
          · exact absurd g4 h
          · rw [if_neg g4]
            by_cases g5 : g = "poNumber"
            · rw [if_pos g5]
            · rw [if_neg g5]
              by_cases g6 : g = "netTotal"
              · rw [if_pos g6]
              · rw [if_neg g6]
                by_cases g7 : g = "taxRate"
                · rw [if_pos g7]
                · rw [if_neg g7]
                  by_cases g8 : g = "taxTotal"
                  · rw [if_pos g8]
                  · rw [if_neg g8]
                    by_cases g9 : g = "grossTotal"
                    · rw [if_pos g9]
                    · rw [if_neg g9]
                      by_cases g10 : g = "discountTerms"
                      · rw [if_pos g10]
                      · rw [if_neg g10]
                        by_cases g11 : g = "lineItems"
                        · rw [if_pos g11]
                        · rw [if_neg g11]

theorem setFieldValue_poNumber_ne (f : InvoiceFields) (g : String) (v : JsVal)
    (h : g ≠ "poNumber") : (setFieldValue f g v).poNumber = f.poNumber := by
  unfold setFieldValue
  by_cases g0 : containsSubstr g "[" = true
  · rw [if_pos g0]
  · rw [if_neg g0]
    by_cases g1 : g = "invoiceNumber"
    · rw [if_pos g1]
    · rw [if_neg g1]
      by_cases g2 : g = "invoiceDate"
      · rw [if_pos g2]
      · rw [if_neg g2]
        by_cases g3 : g = "serviceDate"
        · rw [if_pos g3]
        · rw [if_neg g3]
          by_cases g4 : g = "currency"
          · rw [if_pos g4]
          · rw [if_neg g4]
            by_cases g5 : g = "poNumber"
            · exact absurd g5 h
            · rw [if_neg g5]
              by_cases g6 : g = "netTotal"
              · rw [if_pos g6]
              · rw [if_neg g6]
                by_cases g7 : g = "taxRate"
                · rw [if_pos g7]
                · rw [if_neg g7]
                  by_cases g8 : g = "taxTotal"
                  · rw [if_pos g8]
                  · rw [if_neg g8]
                    by_cases g9 : g = "grossTotal"
                    · rw [if_pos g9]
                    · rw [if_neg g9]
                      by_cases g10 : g = "discountTerms"
                      · rw [if_pos g10]
                      · rw [if_neg g10]
                        by_cases g11 : g = "lineItems"
                        · rw [if_pos g11]
                        · rw [if_neg g11]

theorem setFieldValue_netTotal_ne (f : InvoiceFields) (g : String) (v : JsVal)
    (h : g ≠ "netTotal") : (setFieldValue f g v).netTotal = f.netTotal := by
  unfold setFieldValue
  by_cases g0 : containsSubstr g "[" = true
  · rw [if_pos g0]
  · rw [if_neg g0]
    by_cases g1 : g = "invoiceNumber"
    · rw [if_pos g1]
    · rw [if_neg g1]
      by_cases g2 : g = "invoiceDate"
      · rw [if_pos g2]
      · rw [if_neg g2]
        by_cases g3 : g = "serviceDate"
        · rw [if_pos g3]
        · rw [if_neg g3]
          by_cases g4 : g = "currency"
          · rw [if_pos g4]
          · rw [if_neg g4]
            by_cases g5 : g = "poNumber"
            · rw [if_pos g5]
            · rw [if_neg g5]
              by_cases g6 : g = "netTotal"
              · exact absurd g6 h
              · rw [if_neg g6]
                by_cases g7 : g = "taxRate"
                · rw [if_pos g7]
                · rw [if_neg g7]
                  by_cases g8 : g = "taxTotal"
                  · rw [if_pos g8]
                  · rw [if_neg g8]
                    by_cases g9 : g = "grossTotal"
                    · rw [if_pos g9]
                    · rw [if_neg g9]
                      by_cases g10 : g = "discountTerms"
                      · rw [if_pos g10]
                      · rw [if_neg g10]
                        by_cases g11 : g = "lineItems"
                        · rw [if_pos g11]
                        · rw [if_neg g11]

theorem setFieldValue_taxRate_ne (f : InvoiceFields) (g : String) (v : JsVal)
    (h : g ≠ "taxRate") : (setFieldValue f g v).taxRate = f.taxRate := by
  unfold setFieldValue
  by_cases g0 : containsSubstr g "[" = true
  · rw [if_pos g0]
  · rw [if_neg g0]
    by_cases g1 : g = "invoiceNumber"
    · rw [if_pos g1]
    · rw [if_neg g1]
      by_cases g2 : g = "invoiceDate"
      · rw [if_pos g2]
      · rw [if_neg g2]
        by_cases g3 : g = "serviceDate"
        · rw [if_pos g3]
        · rw [if_neg g3]
          by_cases g4 : g = "currency"
          · rw [if_pos g4]
          · rw [if_neg g4]
            by_cases g5 : g = "poNumber"
            · rw [if_pos g5]
            · rw [if_neg g5]
              by_cases g6 : g = "netTotal"
              · rw [if_pos g6]
              · rw [if_neg g6]
                by_cases g7 : g = "taxRate"
                · exact absurd g7 h
                · rw [if_neg g7]
                  by_cases g8 : g = "taxTotal"
                  · rw [if_pos g8]
                  · rw [if_neg g8]
                    by_cases g9 : g = "grossTotal"
                    · rw [if_pos g9]
                    · rw [if_neg g9]
                      by_cases g10 : g = "discountTerms"
                      · rw [if_pos g10]
                      · rw [if_neg g10]
                        by_cases g11 : g = "lineItems"
                        · rw [if_pos g11]
                        · rw [if_neg g11]

theorem setFieldValue_taxTotal_ne (f : InvoiceFields) (g : String) (v : JsVal)
    (h : g ≠ "taxTotal") : (setFieldValue f g v).taxTotal = f.taxTotal := by
  unfold setFieldValue
  by_cases g0 : containsSubstr g "[" = true
  · rw [if_pos g0]
  · rw [if_neg g0]
    by_cases g1 : g = "invoiceNumber"
    · rw [if_pos g1]
    · rw [if_neg g1]
      by_cases g2 : g = "invoiceDate"
      · rw [if_pos g2]
      · rw [if_neg g2]
        by_cases g3 : g = "serviceDate"
        · rw [if_pos g3]
        · rw [if_neg g3]
          by_cases g4 : g = "currency"
          · rw [if_pos g4]
          · rw [if_neg g4]
            by_cases g5 : g = "poNumber"
            · rw [if_pos g5]
            · rw [if_neg g5]
              by_cases g6 : g = "netTotal"
              · rw [if_pos g6]
              · rw [if_neg g6]
                by_cases g7 : g = "taxRate"
                · rw [if_pos g7]
                · rw [if_neg g7]
                  by_cases g8 : g = "taxTotal"
                  · exact absurd g8 h
                  · rw [if_neg g8]
                    by_cases g9 : g = "grossTotal"
                    · rw [if_pos g9]
                    · rw [if_neg g9]
                      by_cases g10 : g = "discountTerms"
                      · rw [if_pos g10]
                      · rw [if_neg g10]
                        by_cases g11 : g = "lineItems"
                        · rw [if_pos g11]
                        · rw [if_neg g11]

theorem setFieldValue_grossTotal_ne (f : InvoiceFields) (g : String) (v : JsVal)
    (h : g ≠ "grossTotal") : (setFieldValue f g v).grossTotal = f.grossTotal := by
  unfold setFieldValue
  by_cases g0 : containsSubstr g "[" = true
  · rw [if_pos g0]
  · rw [if_neg g0]
    by_cases g1 : g = "invoiceNumber"
    · rw [if_pos g1]
    · rw [if_neg g1]
      by_cases g2 : g = "invoiceDate"
      · rw [if_pos g2]
      · rw [if_neg g2]
        by_cases g3 : g = "serviceDate"
        · rw [if_pos g3]
        · rw [if_neg g3]
          by_cases g4 : g = "currency"
          · rw [if_pos g4]
          · rw [if_neg g4]
            by_cases g5 : g = "poNumber"
            · rw [if_pos g5]
            · rw [if_neg g5]
              by_cases g6 : g = "netTotal"
              · rw [if_pos g6]
              · rw [if_neg g6]
                by_cases g7 : g = "taxRate"
                · rw [if_pos g7]
                · rw [if_neg g7]
                  by_cases g8 : g = "taxTotal"
                  · rw [if_pos g8]
                  · rw [if_neg g8]
                    by_cases g9 : g = "grossTotal"
                    · exact absurd g9 h
                    · rw [if_neg g9]
                      by_cases g10 : g = "discountTerms"
                      · rw [if_pos g10]
                      · rw [if_neg g10]
                        by_cases g11 : g = "lineItems"
                        · rw [if_pos g11]
                        · rw [if_neg g11]

theorem setFieldValue_discountTerms_ne (f : InvoiceFields) (g : String) (v : JsVal)
    (h : g ≠ "discountTerms") : (setFieldValue f g v).discountTerms = f.discountTerms := by
  unfold setFieldValue
  by_cases g0 : containsSubstr g "[" = true
  · rw [if_pos g0]
  · rw [if_neg g0]
    by_cases g1 : g = "invoiceNumber"
    · rw [if_pos g1]
    · rw [if_neg g1]
      by_cases g2 : g = "invoiceDate"
      · rw [if_pos g2]
      · rw [if_neg g2]
        by_cases g3 : g = "serviceDate"
        · rw [if_pos g3]
        · rw [if_neg g3]
          by_cases g4 : g = "currency"
          · rw [if_pos g4]
          · rw [if_neg g4]
            by_cases g5 : g = "poNumber"
            · rw [if_pos g5]
            · rw [if_neg g5]
              by_cases g6 : g = "netTotal"
              · rw [if_pos g6]
              · rw [if_neg g6]
                by_cases g7 : g = "taxRate"
                · rw [if_pos g7]
                · rw [if_neg g7]
                  by_cases g8 : g = "taxTotal"
                  · rw [if_pos g8]
                  · rw [if_neg g8]
                    by_cases g9 : g = "grossTotal"
                    · rw [if_pos g9]
                    · rw [if_neg g9]
                      by_cases g10 : g = "discountTerms"
                      · exact absurd g10 h
                      · rw [if_neg g10]
                        by_cases g11 : g = "lineItems"
                        · rw [if_pos g11]
                        · rw [if_neg g11]

theorem setFieldValue_lineItems (f : InvoiceFields) (g : String) (v : JsVal) :
    (setFieldValue f g v).lineItems = f.lineItems := by
  unfold setFieldValue
  by_cases g0 : containsSubstr g "[" = true
  · rw [if_pos g0]
  · rw [if_neg g0]
    by_cases g1 : g = "invoiceNumber"
    · rw [if_pos g1]
    · rw [if_neg g1]
      by_cases g2 : g = "invoiceDate"
      · rw [if_pos g2]
      · rw [if_neg g2]
        by_cases g3 : g = "serviceDate"
        · rw [if_pos g3]
        · rw [if_neg g3]
          by_cases g4 : g = "currency"
          · rw [if_pos g4]
          · rw [if_neg g4]
            by_cases g5 : g = "poNumber"
            · rw [if_pos g5]
            · rw [if_neg g5]
              by_cases g6 : g = "netTotal"
              · rw [if_pos g6]
              · rw [if_neg g6]
                by_cases g7 : g = "taxRate"
                · rw [if_pos g7]
                · rw [if_neg g7]
                  by_cases g8 : g = "taxTotal"
                  · rw [if_pos g8]
                  · rw [if_neg g8]
                    by_cases g9 : g = "grossTotal"
                    · rw [if_pos g9]
                    · rw [if_neg g9]
                      by_cases g10 : g = "discountTerms"
                      · rw [if_pos g10]
                      · rw [if_neg g10]
                        by_cases g11 : g = "lineItems"
                        · rw [if_pos g11]
                        · rw [if_neg g11]

theorem setFieldValue_extra_lookup_ne (f : InvoiceFields) (g fp : String) (v : JsVal)
    (h : g ≠ fp) : ((setFieldValue f g v).extra).lookup fp = f.extra.lookup fp := by
  unfold setFieldValue
  by_cases g0 : containsSubstr g "[" = true
  · rw [if_pos g0]
  · rw [if_neg g0]
    by_cases g1 : g = "invoiceNumber"
    · rw [if_pos g1]
    · rw [if_neg g1]
      by_cases g2 : g = "invoiceDate"
      · rw [if_pos g2]
      · rw [if_neg g2]
        by_cases g3 : g = "serviceDate"
        · rw [if_pos g3]
        · rw [if_neg g3]
          by_cases g4 : g = "currency"
          · rw [if_pos g4]
          · rw [if_neg g4]
            by_cases g5 : g = "poNumber"
            · rw [if_pos g5]
            · rw [if_neg g5]
              by_cases g6 : g = "netTotal"
              · rw [if_pos g6]
              · rw [if_neg g6]
                by_cases g7 : g = "taxRate"
                · rw [if_pos g7]
                · rw [if_neg g7]
                  by_cases g8 : g = "taxTotal"
                  · rw [if_pos g8]
                  · rw [if_neg g8]
                    by_cases g9 : g = "grossTotal"
                    · rw [if_pos g9]
                    · rw [if_neg g9]
                      by_cases g10 : g = "discountTerms"
                      · rw [if_pos g10]
                      · rw [if_neg g10]
                        by_cases g11 : g = "lineItems"
                        · rw [if_pos g11]
                        · rw [if_neg g11]
                          exact lookup_setAssoc_ne f.extra g fp v h

theorem getFieldValue_setFieldValue_ne (f : InvoiceFields) (g fp : String) (v : JsVal)
    (h : g ≠ fp) : getFieldValue (setFieldValue f g v) fp = getFieldValue f fp := by
  unfold getFieldValue
  by_cases f0 : containsSubstr fp "[" = true
  · rw [if_pos f0, if_pos f0]
  · rw [if_neg f0, if_neg f0]
    by_cases f1 : fp = "invoiceNumber"
    · rw [if_pos f1, if_pos f1]
      exact setFieldValue_invoiceNumber_ne f g v (f1 ▸ h)
    · rw [if_neg f1, if_neg f1]
      by_cases f2 : fp = "invoiceDate"
      · rw [if_pos f2, if_pos f2]
        exact setFieldValue_invoiceDate_ne f g v (f2 ▸ h)
      · rw [if_neg f2, if_neg f2]
        by_cases f3 : fp = "serviceDate"
        · rw [if_pos f3, if_pos f3]
          exact setFieldValue_serviceDate_ne f g v (f3 ▸ h)
        · rw [if_neg f3, if_neg f3]
          by_cases f4 : fp = "currency"
          · rw [if_pos f4, if_pos f4]
            exact setFieldValue_currency_ne f g v (f4 ▸ h)
          · rw [if_neg f4, if_neg f4]
            by_cases f5 : fp = "poNumber"
            · rw [if_pos f5, if_pos f5]
              exact setFieldValue_poNumber_ne f g v (f5 ▸ h)
            · rw [if_neg f5, if_neg f5]
              by_cases f6 : fp = "netTotal"
              · rw [if_pos f6, if_pos f6]
                exact setFieldValue_netTotal_ne f g v (f6 ▸ h)
              · rw [if_neg f6, if_neg f6]
                by_cases f7 : fp = "taxRate"
                · rw [if_pos f7, if_pos f7]
                  exact setFieldValue_taxRate_ne f g v (f7 ▸ h)
                · rw [if_neg f7, if_neg f7]
                  by_cases f8 : fp = "taxTotal"
                  · rw [if_pos f8, if_pos f8]
                    exact setFieldValue_taxTotal_ne f g v (f8 ▸ h)
                  · rw [if_neg f8, if_neg f8]
                    by_cases f9 : fp = "grossTotal"
                    · rw [if_pos f9, if_pos f9]
                      exact setFieldValue_grossTotal_ne f g v (f9 ▸ h)
                    · rw [if_neg f9, if_neg f9]
                      by_cases f10 : fp = "discountTerms"
                      · rw [if_pos f10, if_pos f10]
                        exact setFieldValue_discountTerms_ne f g v (f10 ▸ h)
                      · rw [if_neg f10, if_neg f10]
                        by_cases f11 : fp = "lineItems"
                        · rw [if_pos f11, if_pos f11]
                        · rw [if_neg f11, if_neg f11]
                          rw [setFieldValue_extra_lookup_ne f g fp v h]

theorem applyPatternOne_skip (rawText now : String) (st : PipeState) (p : ExtractionPattern)
    (h : ¬ missingRead (getFieldValue st.fields p.field)) :
    applyPatternOne rawText now st p = st := by
  simp only [applyPatternOne]
  rw [if_neg h]

theorem applyPatternOne_preserves (rawText now : String) (st : PipeState)
    (p : ExtractionPattern) (fp : String) (h : ¬ missingRead (getFieldValue st.fields fp)) :
    getFieldValue (applyPatternOne rawText now st p).fields fp = getFieldValue st.fields fp := by
  by_cases hf : p.field = fp
  · subst hf
    rw [applyPatternOne_skip _ _ _ _ h]
  · simp only [applyPatternOne]
    split_ifs with hm
    · cases hx : extractWithRegex rawText p.regexPattern with
      | none => rfl
      | some g =>
        by_cases hg : g = ""
        · simp [hx, hg]
        · simp [hx, hg, getFieldValue_setFieldValue_ne _ _ _ _ hf]
    · rfl

theorem applyPatternOne_lineItems (rawText now : String) (st : PipeState)
    (p : ExtractionPattern) :
    (applyPatternOne rawText now st p).fields.lineItems = st.fields.lineItems := by
  simp only [applyPatternOne]
  split_ifs with hm
  · cases hx : extractWithRegex rawText p.regexPattern with
    | none => rfl
    | some g =>
      by_cases hg : g = ""
      · simp [hx, hg]
      · simp [hx, hg, setFieldValue_lineItems]
  · rfl

theorem applyPatterns_preserves (rawText now : String) (ps : List ExtractionPattern) :
    ∀ st fp, ¬ missingRead (getFieldValue st.fields fp) →
      getFieldValue (applyPatterns rawText now ps st).fields fp =
        getFieldValue st.fields fp := by
  induction ps with
  | nil => intro st fp _; rfl
  | cons p t ih =>
    intro st fp h
    have h1 := applyPatternOne_preserves rawText now st p fp h
    have h2 : ¬ missingRead (getFieldValue (applyPatternOne rawText now st p).fields fp) := by
      rw [h1]
      exact h
    simp only [applyPatterns, List.foldl_cons]
    rw [show List.foldl (applyPatternOne rawText now) (applyPatternOne rawText now st p) t =
      applyPatterns rawText now t (applyPatternOne rawText now st p) from rfl]
    rw [ih _ _ h2, h1]

theorem applyPatterns_lineItems (rawText now : String) (ps : List ExtractionPattern) :
    ∀ st, (applyPatterns rawText now ps st).fields.lineItems = st.fields.lineItems := by
  induction ps with
  | nil => intro st; rfl
  | cons p t ih =>
    intro st
    simp only [applyPatterns, List.foldl_cons]
    rw [show List.foldl (applyPatternOne rawText now) (applyPatternOne rawText now st p) t =
      applyPatterns rawText now t (applyPatternOne rawText now st p) from rfl]
    rw [ih _, applyPatternOne_lineItems]

/-- C7 counterexample: with the stored bracketed-path pattern
`lineItems[0].sku` and an invoice whose line item 0 already has the nonempty
SKU "ABC", `process` still emits a Correction for that pattern (the accessor
reads bracketed paths as null), so the claim that a pattern is applied only
when the targeted field is null/undefined/empty fails at this input.  The
item itself is untouched. -/
theorem claim7_counterexample :
    exInvS.fields.lineItems.get? 0 = some ⟨some "ABC", some "Widget", 1, 10⟩ ∧
    (⟨"lineItems[0].sku", JsVal.vnull, JsVal.vstr "123",
      "Memory applied: Found match in raw text using learned pattern for lineItems[0].sku"⟩ :
      Correction) ∈ (process exStoreS "T" exInvS refEmpty []).proposedCorrections ∧
    (process exStoreS "T" exInvS refEmpty []).normalizedInvoice.lineItems =
      exInvS.fields.lineItems := by
  refine ⟨rfl, ?_, ?_⟩ <;> with_unfolding_all decide

/-- C7 (amended): a pattern is applied only when the accessor-read value of
its field path is null/undefined/empty (bracketed paths always read as null,
so such patterns may emit Corrections regardless of the underlying item);
no field already holding a non-empty value is ever changed by pattern
application, and line items are never changed by it at all. -/
theorem claim7_pattern_no_overwrite_amended (rawText now : String) (st : PipeState)
    (p : ExtractionPattern) (ps : List ExtractionPattern) (fp : String) :
    (¬ missingRead (getFieldValue st.fields p.field) →
      applyPatternOne rawText now st p = st) ∧
    (¬ missingRead (getFieldValue st.fields fp) →
      getFieldValue (applyPatterns rawText now ps st).fields fp =
        getFieldValue st.fields fp) ∧
    (applyPatterns rawText now ps st).fields.lineItems = st.fields.lineItems :=
  ⟨applyPatternOne_skip rawText now st p,
   applyPatterns_preserves rawText now ps st fp,
   applyPatterns_lineItems rawText now ps st⟩

/-- Witness for C7 (amended) at the concrete bracketed-pattern store. -/
theorem claim7_witness :
    getFieldValue (applyPatterns "SKU: 123" "T" [exPatS] (initState "T" exInvS)).fields
        "invoiceNumber" =
      getFieldValue (initState "T" exInvS).fields "invoiceNumber" ∧
    (applyPatterns "SKU: 123" "T" [exPatS] (initState "T" exInvS)).fields.lineItems =
      (initState "T" exInvS).fields.lineItems :=
  ⟨(claim7_pattern_no_overwrite_amended "SKU: 123" "T" (initState "T" exInvS) exPatS [exPatS]
      "invoiceNumber").2.1 (by with_unfolding_all decide),
   (claim7_pattern_no_overwrite_amended "SKU: 123" "T" (initState "T" exInvS) exPatS [exPatS]
      "invoiceNumber").2.2⟩

/-! ## C3: SKU mapping, learn and apply -/

theorem listStartsWith_decomp (s pre : List Char) (h : listStartsWith s pre = true) :
    ∃ t, s = pre ++ t := by
  induction pre generalizing s with
  | nil => exact ⟨s, rfl⟩
  | cons b bs ih =>
    cases s with
    | nil => simp [listStartsWith] at h
    | cons a t =>
      simp only [listStartsWith, Bool.and_eq_true, decide_eq_true_eq] at h
      obtain ⟨rfl, h2⟩ := h
      obtain ⟨t', rfl⟩ := ih t h2
      exact ⟨t', rfl⟩

theorem listStartsWith_append (pre t : List Char) : listStartsWith (pre ++ t) pre = true := by
  induction pre with
  | nil => cases t <;> rfl
  | cons b bs ih => simp [listStartsWith, ih]

theorem parseNatL_suffix (cs : List Char) :
    ∀ n rest, parseNatL cs = some (n, rest) → ∃ ds, cs = ds ++ rest := by
  induction cs with
  | nil => intro n rest h; simp [parseNatL] at h
  | cons c t ih =>
    intro n rest h
    simp only [parseNatL] at h
    split_ifs at h with hd
    · cases hp : parseNatL t with
      | some pr =>
        obtain ⟨m, r⟩ := pr
        rw [hp] at h
        obtain ⟨-, rfl⟩ : _ ∧ r = rest := by
          simpa using h
        obtain ⟨ds, rfl⟩ := ih m r hp
        exact ⟨c :: ds, rfl⟩
      | none =>
        rw [hp] at h
        obtain ⟨-, rfl⟩ : _ ∧ t = rest := by
          simpa using h
        exact ⟨[c], rfl⟩

theorem matchSkuAt_decomp (s : List Char) (n : Nat) (h : matchSkuAt s = some n) :
    ∃ ds tail, s = ("lineItems[".data ++ ds) ++ (("].sku".data) ++ tail) := by
  unfold matchSkuAt at h
  split_ifs at h with h1
  · obtain ⟨t0, hs⟩ := listStartsWith_decomp s ("lineItems[".data) h1
    cases hp : parseNatL (s.drop 10) with
    | none => rw [hp] at h; simp at h
    | some pr =>
      obtain ⟨m, rest⟩ := pr
      rw [hp] at h
      dsimp only at h
      split_ifs at h with h2
      · obtain ⟨tail, hr⟩ := listStartsWith_decomp rest ("].sku".data) h2
        have hdrop : s.drop 10 = t0 := by
          rw [hs]
          simp
        obtain ⟨ds, hds⟩ := parseNatL_suffix (s.drop 10) m rest hp
        refine ⟨ds, tail, ?_⟩
        rw [hs]
        rw [hdrop] at hds
        rw [hds, hr]
        simp

theorem jsIndexOfAux_isSome_of_split (needle : List Char) :
    ∀ s i pre suf, s = pre ++ needle ++ suf → (jsIndexOfAux needle s i).isSome = true := by
  intro s
  induction s with
  | nil =>
    intro i pre suf h
    have hp : pre = [] := by cases pre <;> simp_all
    subst hp
    have hn : needle = [] := by cases needle <;> simp_all
    subst hn
    simp [jsIndexOfAux, listStartsWith]
  | cons a t ih =>
    intro i pre suf h
    cases pre with
    | nil =>
      simp only [List.nil_append] at h
      simp only [jsIndexOfAux]
      rw [if_pos (h ▸ listStartsWith_append needle suf)]
      rfl
    | cons b bs =>
      obtain ⟨rfl, ht⟩ : b = a ∧ bs ++ (needle ++ suf) = t := by
        simpa using h.symm
      simp only [jsIndexOfAux]
      split_ifs with hsw
      · rfl
      · exact ih (i + 1) bs suf (by rw [← ht, List.append_assoc])

theorem skuFieldIndexAux_decomp (s : List Char) (n : Nat) (h : skuFieldIndexAux s = some n) :
    ∃ pre ds tail, s = pre ++ (("lineItems[".data ++ ds) ++ (("].sku".data) ++ tail)) := by
  induction s with
  | nil =>
    simp only [skuFieldIndexAux] at h
    obtain ⟨ds, tail, hd⟩ := matchSkuAt_decomp [] n h
    exact ⟨[], ds, tail, hd⟩
  | cons a t ih =>
    simp only [skuFieldIndexAux] at h
    cases hm : matchSkuAt (a :: t) with
    | some m =>
      rw [hm] at h
      obtain ⟨ds, tail, hd⟩ := matchSkuAt_decomp (a :: t) m hm
      exact ⟨[], ds, tail, hd⟩
    | none =>
      rw [hm] at h
      obtain ⟨pre, ds, tail, hd⟩ := ih h
      exact ⟨a :: pre, ds, tail, by rw [List.cons_append, ← hd]⟩

theorem sku_substring_of_index (f : String) (idx : Nat) (h : skuFieldIndex f = some idx) :
    containsSubstr f "sku" = true := by
  obtain ⟨pre, ds, tail, hd⟩ := skuFieldIndexAux_decomp f.data idx h
  unfold containsSubstr jsIndexOf
  have hsplit : f.data = (pre ++ "lineItems[".data ++ ds ++ [']', '.']) ++ "sku".data ++ tail := by
    rw [hd]
    simp
  exact jsIndexOfAux_isSome_of_split ("sku".data) f.data 0
    (pre ++ "lineItems[".data ++ ds ++ [']', '.']) tail hsplit

theorem learnPatternStep_statics (store : MemoryStoreData) (vendor rawText now : String)
    (c : Correction) :
    (getVendorMemory (learnPatternStep store vendor rawText now c) vendor).staticCorrections =
      (getVendorMemory store vendor).staticCorrections := by
  obtain ⟨cf, cfr, cto, crs⟩ := c
  unfold learnPatternStep
  cases cto <;> try rfl
  case vstr v =>
    dsimp only
    by_cases hlen : minLengthFor cf ≤ v.length
    · rw [if_pos hlen]
      cases hf : firstFoundValue rawText (searchValues v) with
      | some pr =>
        obtain ⟨val, idx⟩ := pr
        dsimp only
        cases hl : labeledPattern rawText cf val now idx with
        | some pat =>
          dsimp only
          rw [getVendorMemory_addPattern]
        | none => rfl
      | none =>
        dsimp only
        by_cases hsp : containsSubstr v " " = true
        · rw [if_pos hsp]
          cases hfp : flexPattern v with
          | some fp =>
            dsimp only
            by_cases hfm : flexMatches rawText fp = true
            · rw [if_pos hfm, getVendorMemory_addPattern]
            · rw [if_neg hfm]
          | none => rfl
        · rw [if_neg hsp]
    · rw [if_neg hlen]

theorem learnSkuStep_adds (store : MemoryStoreData) (vendor : String) (fields : InvoiceFields)
    (c : Correction) (idx : Nat) (tv : String) (item : LineItem) (desc : String)
    (hidx : skuFieldIndex c.field = some idx) (hto : c.to_ = JsVal.vstr tv) (htv : tv ≠ "")
    (hitem : fields.lineItems.get? idx = some item) (hdesc : item.description = some desc)
    (hdne : desc ≠ "") :
    learnSkuStep store vendor fields c =
      addStaticCorrection store vendor
        ⟨"lineItems.sku", some desc, tv, none, 8 / 10, 1⟩ := by
  have h1 : containsSubstr c.field "sku" = true := sku_substring_of_index c.field idx hidx
  have h2 : jsTruthy c.to_ = true := by
    rw [hto]
    simpa [jsTruthy] using htv
  unfold learnSkuStep
  rw [if_pos (by rw [h1, h2]; rfl), hidx]
  dsimp only
  rw [hitem]
  simp only [Option.some_bind, hdesc, if_neg hdne, hto]

theorem applySkuItems_items (trig corr : String) :
    ∀ items i, (applySkuItems trig corr items i).1 = items.map (skuRuleUpd trig corr) := by
  intro items
  induction items with
  | nil => intro i; rfl
  | cons item t ih =>
    intro i
    simp only [applySkuItems, List.map_cons]
    rw [ih (i + 1)]

theorem applySkuItems_corr_mem (trig corr : String) :
    ∀ items i j item, items.get? j = some item → skuRuleHit trig item = true →
      mkSkuCorrection (i + j) item corr ∈ (applySkuItems trig corr items i).2 := by
  intro items
  induction items with
  | nil => intro i j item h; simp at h
  | cons hd t ih =>
    intro i j item hj hh
    cases j with
    | zero =>
      obtain rfl : hd = item := Option.some.inj hj
      simp only [applySkuItems, if_pos hh, Nat.add_zero]
      exact List.mem_append_left _ (List.mem_singleton_self _)
    | succ k =>
      have := ih (i + 1) k item (by simpa using hj) hh
      have harith : i + 1 + k = i + (k + 1) := by omega
      rw [harith] at this
      simp only [applySkuItems]
      exact List.mem_append_right _ this

theorem applyStaticRule_sku (st : PipeState) (trig corr : String) (cond : Option String)
    (conf : ℚ) (uc : Nat) (htrig : trig ≠ "") :
    applyStaticRule st ⟨"lineItems.sku", some trig, corr, cond, conf, uc⟩ =
      { st with
        fields := { st.fields with
          lineItems := st.fields.lineItems.map (skuRuleUpd trig corr) },
        corrections := st.corrections ++
          (applySkuItems trig corr st.fields.lineItems 0).2 } := by
  unfold applyStaticRule
  rw [if_pos (by decide : containsSubstr "lineItems.sku" "lineItems" = true)]
  dsimp only
  have hc : (strEndsWith "lineItems.sku" ".sku" && !decide (trig = "")) = true := by
    rw [(by decide : strEndsWith "lineItems.sku" ".sku" = true)]
    simpa using htrig
  rw [if_pos hc]
  rw [show applySkuItems trig corr st.fields.lineItems 0 =
    ((applySkuItems trig corr st.fields.lineItems 0).1,
     (applySkuItems trig corr st.fields.lineItems 0).2) from rfl]
  dsimp only
  rw [applySkuItems_items]

theorem applyPOStage_lineItems (vendor : String) (ref : ReferenceData) (st : PipeState) :
    (applyPOStage vendor ref st).fields.lineItems = st.fields.lineItems := by
  unfold applyPOStage
  split_ifs with h
  · cases hf : findMatchingPOWithVendor st.fields vendor ref <;> rfl
  · rfl

theorem applyPOStage_corr_mono (vendor : String) (ref : ReferenceData) (st : PipeState) :
    ∃ t, (applyPOStage vendor ref st).corrections = st.corrections ++ t := by
  unfold applyPOStage
  split_ifs with h
  · cases hf : findMatchingPOWithVendor st.fields vendor ref with
    | some po => exact ⟨_, rfl⟩
    | none => exact ⟨[], (List.append_nil _).symm⟩
  · exact ⟨[], (List.append_nil _).symm⟩

theorem taxStage_lineItems (rawText : String) (st : PipeState) :
    (taxStage rawText st).fields.lineItems = st.fields.lineItems := by
  unfold taxStage taxCalcStage taxSumStage
  dsimp only
  split_ifs <;> (try dsimp only) <;> try rfl
  all_goals
    cases hg : toNum st.fields.grossTotal <;> cases hr : toNum st.fields.taxRate <;> rfl

theorem taxStage_corr_mono (rawText : String) (st : PipeState) :
    ∃ t, (taxStage rawText st).corrections = st.corrections ++ t := by
  unfold taxStage taxCalcStage taxSumStage
  dsimp only
  split_ifs <;> (try dsimp only) <;>
    first
      | exact ⟨[], (List.append_nil _).symm⟩
      | (cases hg : toNum st.fields.grossTotal <;> cases hr : toNum st.fields.taxRate <;>
          first
            | exact ⟨[], (List.append_nil _).symm⟩
            | exact ⟨_, rfl⟩)

set_option maxRecDepth 8000 in
/-- C3: an approved human correction with field path `lineItems[i].sku` and a
non-empty string value, on an invoice whose line item i has a nonempty
description, persists the vendor-scoped static correction
(lineItems.sku, triggerValue = description, correctedValue = SKU,
confidence 0.8); afterwards `process` of any same-vendor invoice under that
rule sets the SKU of every line item whose description contains the trigger
and whose SKU is absent, emitting a Correction for each such item.  The
Seefracht → FREIGHT example holds end to end. -/
theorem claim3_sku_mapping_learn_and_apply
    (store : MemoryStoreData) (now : String) (invoice : Invoice) (log : HumanCorrectionLog)
    (c : Correction) (idx : Nat) (tv : String) (item : LineItem) (desc : String)
    (store2 : MemoryStoreData) (now2 : String) (inv2 : Invoice) (ref2 : ReferenceData)
    (past2 : List Invoice) (trig corr : String) (cond : Option String) (conf : ℚ) (uc : Nat) :
    ((log.finalDecision = FinalDecision.approved) → (log.corrections = [c]) →
      (skuFieldIndex c.field = some idx) → (c.to_ = JsVal.vstr tv) → (tv ≠ "") →
      (invoice.fields.lineItems.get? idx = some item) → (item.description = some desc) →
      (desc ≠ "") →
      (getVendorMemory store invoice.vendor = ⟨invoice.vendor, [], []⟩) →
      (getVendorMemory (learn store now invoice log) invoice.vendor).staticCorrections =
        [⟨"lineItems.sku", some desc, tv, none, 8 / 10, 1⟩]) ∧
    ((past2.find? (isDuplicateOf inv2) = none) →
      (getVendorMemory store2 inv2.vendor =
        ⟨inv2.vendor, [], [⟨"lineItems.sku", some trig, corr, cond, conf, uc⟩]⟩) →
      (trig ≠ "") →
      ((process store2 now2 inv2 ref2 past2).normalizedInvoice.lineItems =
        inv2.fields.lineItems.map (skuRuleUpd trig corr)) ∧
      (∀ j itm, inv2.fields.lineItems.get? j = some itm → skuRuleHit trig itm = true →
        mkSkuCorrection j itm corr ∈
          (process store2 now2 inv2 ref2 past2).proposedCorrections)) ∧
    ((getVendorMemory exStoreC "Freight Co").staticCorrections =
      [⟨"lineItems.sku", some "Seefracht", "FREIGHT", none, 8 / 10, 1⟩] ∧
     (process exStoreC "T2" exInvC3 refEmpty []).normalizedInvoice.lineItems =
       [⟨some "FREIGHT", some "Seefracht Hamburg", 2, 700⟩,
        ⟨some "X1", some "Zoll", 1, 50⟩] ∧
     mkSkuCorrection 0 ⟨none, some "Seefracht Hamburg", 2, 700⟩ "FREIGHT" ∈
       (process exStoreC "T2" exInvC3 refEmpty []).proposedCorrections) := by
  refine ⟨?_, ?_, ?_⟩
  · intro happ hcorr hidx hto htv hitem hdesc hdne hempty
    unfold learn
    rw [happ]
    dsimp only
    rw [hcorr]
    simp only [List.foldl_cons, List.foldl_nil]
    unfold learnStep
    rw [learnSkuStep_adds _ _ _ _ idx tv item desc hidx hto htv hitem hdesc hdne]
    rw [getVendorMemory_addStatic]
    dsimp only
    rw [learnPatternStep_statics, hempty]
    rfl
  · intro hnd hmem htrig
    unfold process
    rw [hnd]
    unfold processPipeline
    rw [hmem]
    dsimp only
    simp only [applyPatterns, applyStatics, List.foldl_nil, List.foldl_cons]
    rw [applyStaticRule_sku _ trig corr cond conf uc htrig]
    constructor
    · rw [finalize_fields, taxStage_lineItems, applyPOStage_lineItems]
      dsimp only [initState]
    · intro j itm hj hhit
      have hmem0 : mkSkuCorrection j itm corr ∈
          (applySkuItems trig corr inv2.fields.lineItems 0).2 := by
        have := applySkuItems_corr_mem trig corr inv2.fields.lineItems 0 j itm hj hhit
        simpa using this
      rw [finalize_corrections]
      obtain ⟨t3, ht3⟩ := taxStage_corr_mono inv2.rawText _
      rw [ht3]
      obtain ⟨t2, ht2⟩ := applyPOStage_corr_mono inv2.vendor ref2 _
      rw [ht2]
      refine List.mem_append_left _ (List.mem_append_left _ ?_)
      simpa [initState] using hmem0
  · refine ⟨?_, ?_, ?_⟩ <;> with_unfolding_all decide

/-- Witness for C3 at the concrete Seefracht scenario. -/
theorem claim3_witness :
    (getVendorMemory (learn emptyStore "T1" exInvC exLogC) "Freight Co").staticCorrections =
      [⟨"lineItems.sku", some "Seefracht", "FREIGHT", none, 8 / 10, 1⟩] := by
  have h := (claim3_sku_mapping_learn_and_apply emptyStore "T1" exInvC exLogC
      ⟨"lineItems[0].sku", .vnull, .vstr "FREIGHT", "fix"⟩ 0 "FREIGHT"
      ⟨none, some "Seefracht", 1, 500⟩ "Seefracht"
      emptyStore "T" exInvC refEmpty [] "x" "y" none 1 1).1
  exact h rfl rfl (by with_unfolding_all decide) rfl (by decide) rfl rfl (by decide) rfl

/-! ## C5 and C10: PO matching -/

theorem poLoop_eq_find (invD : Int) (invItems : List LineItem) :
    ∀ pos : List PurchaseOrder,
      poLoop invD invItems pos = pos.find? (poAcceptB invD invItems) := by
  intro pos
  induction pos with
  | nil => rfl
  | cons po t ih =>
    cases hp : parseDateStr po.date with
    | none =>
      have hpred : poAcceptB invD invItems po = false := by
        simp [poAcceptB, hp]
      simp only [poLoop, hp, List.find?, hpred, ih]
    | some poD =>
      simp only [poLoop, hp]
      by_cases hdate : poD ≤ invD ∧ invD - poD < 60
      · rw [if_pos hdate]
        by_cases hsku : skuAnyMatch invItems po.lineItems = true
        · have hpred : poAcceptB invD invItems po = true := by
            simp [poAcceptB, hp, hdate, hsku]
          rw [if_pos hsku]
          simp only [List.find?, hpred]
        · rw [if_neg hsku]
          by_cases hfz : fuzzyAnyMatch invItems po.lineItems = true
          · have hpred : poAcceptB invD invItems po = true := by
              simp [poAcceptB, hp, hdate, hfz]
            rw [if_pos hfz]
            simp only [List.find?, hpred]
          · have hpred : poAcceptB invD invItems po = false := by
              simp only [poAcceptB, hp]
              simp only [Bool.not_eq_true] at hsku hfz
              simp [hsku, hfz]
            rw [if_neg hfz]
            simp only [List.find?, hpred, ih]
      · have hpred : poAcceptB invD invItems po = false := by
          simp [poAcceptB, hp, hdate]
        rw [if_neg hdate]
        simp only [List.find?, hpred, ih]

theorem taxStage_poNumber (rawText : String) (st : PipeState) :
    (taxStage rawText st).fields.poNumber = st.fields.poNumber := by
  unfold taxStage taxCalcStage taxSumStage
  dsimp only
  split_ifs <;> (try dsimp only) <;> try rfl
  all_goals
    cases hg : toNum st.fields.grossTotal <;> cases hr : toNum st.fields.taxRate <;> rfl

/-- On the non-duplicate path, with empty vendor memory and a missing PO
number, a successful PO match writes the PO number and its Correction. -/
theorem process_po_write (store : MemoryStoreData) (now : String) (inv : Invoice)
    (ref : ReferenceData) (past : List Invoice) (po : PurchaseOrder)
    (hnd : past.find? (isDuplicateOf inv) = none)
    (hempty : getVendorMemory store inv.vendor = ⟨inv.vendor, [], []⟩)
    (hpo : jsFalsy inv.fields.poNumber = true)
    (hfind : findMatchingPOWithVendor inv.fields inv.vendor ref = some po) :
    (process store now inv ref past).normalizedInvoice.poNumber = JsVal.vstr po.poNumber ∧
    (⟨"poNumber", JsVal.vnull, JsVal.vstr po.poNumber,
      "Heuristic: Found matching PO based on vendor and line items."⟩ : Correction) ∈
      (process store now inv ref past).proposedCorrections := by
  unfold process
  rw [hnd]
  unfold processPipeline
  rw [hempty]
  dsimp only
  simp only [applyPatterns, applyStatics, List.foldl_nil]
  unfold applyPOStage
  rw [if_pos (show jsFalsy (initState now inv).fields.poNumber = true from hpo)]
  rw [show findMatchingPOWithVendor (initState now inv).fields inv.vendor ref =
    findMatchingPOWithVendor inv.fields inv.vendor ref from rfl]
  rw [hfind]
  constructor
  · rw [finalize_fields, taxStage_poNumber]
  · rw [finalize_corrections]
    obtain ⟨t3, ht3⟩ := taxStage_corr_mono inv.rawText _
    rw [ht3]
    refine List.mem_append_left _ ?_
    dsimp only [initState]
    simp

/-- C5: `findMatchingPOWithVendor` selects the first same-vendor PO, in
reference-data order, whose parsed date is on or before the invoice date by
strictly less than 60 days and which matches by exact SKU or, failing that,
fuzzily (equal quantity, unit price within 0.01); the selected PO's number
is written to a missing `poNumber` with a Correction.  A PO with a 10-day
gap and a shared exact SKU is accepted whatever the prices; a PO 70 days
earlier is never accepted, hence never selected. -/
theorem claim5_po_matching (inv : InvoiceFields) (vendor : String) (refData : ReferenceData)
    (store : MemoryStoreData) (now : String) (invoice : Invoice) (ref2 : ReferenceData)
    (past : List Invoice) (po0 : PurchaseOrder) (invD : Int) (invItems : List LineItem)
    (po : PurchaseOrder) (poD : Int) :
    (findMatchingPOWithVendor inv vendor refData =
      match parseDateJs inv.invoiceDate with
      | none => none
      | some d =>
        (refData.purchaseOrders.filter (fun p => decide (p.vendor = vendor))).find?
          (poAcceptB d inv.lineItems)) ∧
    (∀ p, findMatchingPOWithVendor inv vendor refData = some p →
      ∃ d, parseDateJs inv.invoiceDate = some d ∧
        p ∈ refData.purchaseOrders.filter (fun q => decide (q.vendor = vendor)) ∧
        poAcceptB d inv.lineItems p = true) ∧
    (parseDateStr po.date = some poD → invD - poD = 70 →
      poAcceptB invD invItems po = false) ∧
    (parseDateStr po.date = some poD → poD ≤ invD → invD - poD = 10 →
      (∃ pi ∈ po.lineItems, ∃ ii ∈ invItems, ii.sku = pi.sku) →
      poAcceptB invD invItems po = true) ∧
    ((past.find? (isDuplicateOf invoice) = none) →
      (getVendorMemory store invoice.vendor = ⟨invoice.vendor, [], []⟩) →
      (jsFalsy invoice.fields.poNumber = true) →
      (findMatchingPOWithVendor invoice.fields invoice.vendor ref2 = some po0) →
      (process store now invoice ref2 past).normalizedInvoice.poNumber =
        JsVal.vstr po0.poNumber ∧
      (⟨"poNumber", JsVal.vnull, JsVal.vstr po0.poNumber,
        "Heuristic: Found matching PO based on vendor and line items."⟩ : Correction) ∈
        (process store now invoice ref2 past).proposedCorrections) := by
  refine ⟨?_, ?_, ?_, ?_, ?_⟩
  · unfold findMatchingPOWithVendor
    cases hd : parseDateJs inv.invoiceDate with
    | none => rfl
    | some d =>
      dsimp only
      exact poLoop_eq_find d inv.lineItems _
  · intro p hp
    unfold findMatchingPOWithVendor at hp
    cases hd : parseDateJs inv.invoiceDate with
    | none => rw [hd] at hp; simp at hp
    | some d =>
      rw [hd] at hp
      dsimp only at hp
      rw [poLoop_eq_find] at hp
      exact ⟨d, rfl, List.mem_of_find?_eq_some hp, List.find?_some hp⟩
  · intro hpd hgap
    simp only [poAcceptB, hpd]
    have : ¬(poD ≤ invD ∧ invD - poD < 60) := by omega
    simp [this]
  · intro hpd hle hgap hsku
    simp only [poAcceptB, hpd]
    have hd : poD ≤ invD ∧ invD - poD < 60 := by omega
    have hs : skuAnyMatch invItems po.lineItems = true := by
      obtain ⟨pi, hpi, ii, hii, he⟩ := hsku
      unfold skuAnyMatch
      rw [List.any_eq_true]
      exact ⟨pi, hpi, by rw [List.any_eq_true]; exact ⟨ii, hii, by simp [he]⟩⟩
    simp [hd, hs]
  · intro hnd hempty hpo hfind
    exact process_po_write store now invoice ref2 past po0 hnd hempty hpo hfind

set_option maxRecDepth 4000 in
/-- Witness for C5: the PO ten days back with shared SKU S1 is selected (the
80-day-old PO listed first is skipped), despite differing unit prices. -/
theorem claim5_witness :
    (process emptyStore "T" exInvP exRefP []).normalizedInvoice.poNumber =
      JsVal.vstr "PO-10" := by
  have h := (claim5_po_matching exInvP.fields "Supplier GmbH" exRefP emptyStore "T" exInvP
    exRefP [] exPoGood 0 [] exPoGood 0).2.2.2.2 rfl rfl (by decide)
    (by decide)
  exact h.1

set_option maxRecDepth 4000 in
/-- C10 counterexample: both null-SKU POs satisfy the claim's conditions
(same vendor, inside the window, a null-SKU line item), but only the first
one is selected; the second is not, refuting "any such PO … is selected". -/
theorem claim10_counterexample :
    exPoN2.vendor = "V" ∧
    parseDateStr exPoN2.date = some 19734 ∧
    parseDateJs exInvN.fields.invoiceDate = some 19742 ∧
    (∃ pi ∈ exPoN2.lineItems, pi.sku = none) ∧
    (∃ ii ∈ exInvN.fields.lineItems, ii.sku = none) ∧
    (process emptyStore "T" exInvN exRefN []).normalizedInvoice.poNumber =
      JsVal.vstr "PO-N1" ∧
    ("PO-N1" : String) ≠ "PO-N2" := by
  refine ⟨rfl, by decide, by decide, ?_, ?_, ?_, by decide⟩
  · exact ⟨⟨none, none, 7, 7⟩, by decide, rfl⟩
  · exact ⟨⟨none, some "x", 99, 123⟩, by decide, rfl⟩
  · exact (process_po_write emptyStore "T" exInvN exRefN [] exPoN1 rfl rfl (by decide)
      (by decide)).1

/-- C10 (amended): a null invoice-item SKU compares equal to a null PO-item
SKU, so the exact-SKU test accepts such a pair regardless of quantities and
prices; the first same-vendor candidate in reference-data order with a valid
window and a null-SKU item against a null-SKU invoice item is the one
selected by `process` (writing its number to the missing poNumber). -/
theorem claim10_null_sku_match_amended (invItems poItems : List LineItem) (ii pi : LineItem)
    (store : MemoryStoreData) (now : String) (inv : Invoice) (ref : ReferenceData)
    (past : List Invoice) (po : PurchaseOrder) (rest : List PurchaseOrder)
    (invD poD : Int) :
    ((ii ∈ invItems) → (pi ∈ poItems) → ii.sku = none → pi.sku = none →
      skuAnyMatch invItems poItems = true) ∧
    ((past.find? (isDuplicateOf inv) = none) →
      (getVendorMemory store inv.vendor = ⟨inv.vendor, [], []⟩) →
      (jsFalsy inv.fields.poNumber = true) →
      (parseDateJs inv.fields.invoiceDate = some invD) →
      (ref.purchaseOrders.filter (fun p => decide (p.vendor = inv.vendor)) = po :: rest) →
      (parseDateStr po.date = some poD) →
      (poD ≤ invD) → (invD - poD < 60) →
      (ii ∈ inv.fields.lineItems) → (pi ∈ po.lineItems) →
      ii.sku = none → pi.sku = none →
      (process store now inv ref past).normalizedInvoice.poNumber =
        JsVal.vstr po.poNumber) := by
  have hsku : ∀ (l1 l2 : List LineItem), ii ∈ l1 → pi ∈ l2 → ii.sku = none → pi.sku = none →
      skuAnyMatch l1 l2 = true := by
    intro l1 l2 h1 h2 hi hp
    unfold skuAnyMatch
    rw [List.any_eq_true]
    refine ⟨pi, h2, ?_⟩
    rw [List.any_eq_true]
    exact ⟨ii, h1, by simp [hi, hp]⟩
  constructor
  · intro h1 h2 hi hp
    exact hsku invItems poItems h1 h2 hi hp
  · intro hnd hempty hpo hdate hfilter hpd hle hgap h1 h2 hi hp
    have hfind : findMatchingPOWithVendor inv.fields inv.vendor ref = some po := by
      unfold findMatchingPOWithVendor
      rw [hdate]
      dsimp only
      rw [hfilter, poLoop_eq_find]
      have hpred : poAcceptB invD inv.fields.lineItems po = true := by
        simp only [poAcceptB, hpd]
        have hd : poD ≤ invD ∧ invD - poD < 60 := ⟨hle, hgap⟩
        simp [hd, hsku inv.fields.lineItems po.lineItems h1 h2 hi hp]
      simp only [List.find?, hpred]
    exact (process_po_write store now inv ref past po hnd hempty hpo hfind).1

set_option maxRecDepth 4000 in
/-- Witness for C10 (amended) at the concrete null-SKU reference data. -/
theorem claim10_witness :
    (process emptyStore "T" exInvN exRefN []).normalizedInvoice.poNumber =
      JsVal.vstr "PO-N1" := by
  have h := (claim10_null_sku_match_amended exInvN.fields.lineItems exPoN1.lineItems
    ⟨none, some "x", 99, 123⟩ ⟨none, none, 1, 1⟩ emptyStore "T" exInvN exRefN [] exPoN1
    [exPoN2] 19742 19732).2 rfl rfl (by decide) (by decide)
    (by decide) (by decide) (by decide) (by decide)
    (by decide) (by decide) rfl rfl
  exact h

/-! ## C4: tax reconciliation -/

theorem taxSumStage_spec (st : PipeState) (n t g : ℚ)
    (hn : st.fields.netTotal = JsVal.vnum n) (ht : st.fields.taxTotal = JsVal.vnum t)
    (hg : st.fields.grossTotal = JsVal.vnum g) :
    taxSumStage st =
      { st with
        review := if 1 < |n + t - g| then true else st.review,
        reasoning := if 1 < |n + t - g| then
            st.reasoning ++ "Totals do not sum up (Net + Tax != Gross). "
          else st.reasoning } := by
  have hsum : taxSumDiff st.fields = some |n + t - g| := by
    simp [taxSumDiff, hn, ht, hg, toNum]
  unfold taxSumStage
  by_cases hs : 1 < |n + t - g|
  · rw [if_pos (by rw [hsum]; simp [optDiffGt1, hs]), if_pos hs, if_pos hs]
  · rw [if_neg (by rw [hsum]; simp [optDiffGt1, hs]), if_neg hs, if_neg hs]

theorem taxCalcStage_recalc (rawText : String) (st1 : PipeState) (n r t g : ℚ)
    (hn : st1.fields.netTotal = JsVal.vnum n) (hr : st1.fields.taxRate = JsVal.vnum r)
    (ht : st1.fields.taxTotal = JsVal.vnum t) (hg : st1.fields.grossTotal = JsVal.vnum g)
    (hcalc : 1 < |n * (1 + r) - g|) (hincl : inclVatText rawText = true) :
    taxCalcStage rawText st1 =
      { st1 with
        fields := { st1.fields with
          netTotal := JsVal.vnum (round2 (g / (1 + r))),
          taxTotal := JsVal.vnum (round2 (g - round2 (g / (1 + r)))) },
        corrections := st1.corrections ++
          [⟨"netTotal", JsVal.vnum n, JsVal.vnum (round2 (g / (1 + r))),
            "Detected \x27incl. VAT\x27 context, recalculated Net from Gross"⟩,
           ⟨"taxTotal", JsVal.vnum t, JsVal.vnum (round2 (g - round2 (g / (1 + r)))),
            "Recalculated Tax from Gross"⟩] } := by
  have hcd : taxCalcDiff st1.fields = some |n * (1 + r) - g| := by
    simp [taxCalcDiff, hn, hr, hg, toNum]
  unfold taxCalcStage
  rw [if_pos (by rw [hcd]; simp [optDiffGt1, hcalc]), if_pos hincl, hg, hr]
  dsimp only [toNum]
  rw [hn, ht]

theorem taxCalcStage_quiet (rawText : String) (st1 : PipeState) (n r g : ℚ)
    (hn : st1.fields.netTotal = JsVal.vnum n) (hr : st1.fields.taxRate = JsVal.vnum r)
    (hg : st1.fields.grossTotal = JsVal.vnum g)
    (hcalc : ¬ 1 < |n * (1 + r) - g|) :
    taxCalcStage rawText st1 = st1 := by
  have hcd : taxCalcDiff st1.fields = some |n * (1 + r) - g| := by
    simp [taxCalcDiff, hn, hr, hg, toNum]
  unfold taxCalcStage
  rw [if_neg (by rw [hcd]; simp [optDiffGt1, hcalc])]

theorem finalize_reasoning (now : String) (conf : ℚ) (st : PipeState) :
    (finalize now conf st).reasoning =
      jsTrim ((if st.corrections = [] then st.reasoning
               else st.reasoning ++ "Applied corrections based on memory/heuristics. ") ++
              (if (jsFalsy st.fields.invoiceNumber || jsFalsy st.fields.invoiceDate ||
                   jsFalsy st.fields.currency) = true
               then "Critical fields missing. " else "")) := by
  by_cases hc : st.corrections = [] <;>
    by_cases hm : (jsFalsy st.fields.invoiceNumber || jsFalsy st.fields.invoiceDate ||
      jsFalsy st.fields.currency) = true <;>
    simp [finalize, hc, hm]

theorem applyPOStage_cases (v : String) (ref : ReferenceData) (st : PipeState) :
    applyPOStage v ref st = st ∨
    ∃ po : PurchaseOrder, applyPOStage v ref st =
      { st with
        fields := { st.fields with poNumber := JsVal.vstr po.poNumber },
        corrections := st.corrections ++
          [⟨"poNumber", JsVal.vnull, JsVal.vstr po.poNumber,
            "Heuristic: Found matching PO based on vendor and line items."⟩] } := by
  unfold applyPOStage
  split_ifs with h
  · cases hf : findMatchingPOWithVendor st.fields v ref with
    | some po => exact Or.inr ⟨po, rfl⟩
    | none => exact Or.inl rfl
  · exact Or.inl rfl

theorem pipeline_tax_facts (rawText now : String) (conf : ℚ) (st3 : PipeState) (n r t g : ℚ)
    (hn : st3.fields.netTotal = JsVal.vnum n) (hr : st3.fields.taxRate = JsVal.vnum r)
    (ht : st3.fields.taxTotal = JsVal.vnum t) (hg : st3.fields.grossTotal = JsVal.vnum g)
    (hreason : st3.reasoning = "")
    (hcorr : ∀ c ∈ st3.corrections,
      c.reason = "Heuristic: Found matching PO based on vendor and line items.") :
    (1 < |n * (1 + r) - g| → inclVatText rawText = true →
      ((⟨"netTotal", JsVal.vnum n, JsVal.vnum (round2 (g / (1 + r))),
        "Detected \x27incl. VAT\x27 context, recalculated Net from Gross"⟩ : Correction) ∈
        (finalize now conf (taxStage rawText st3)).proposedCorrections ∧
      (⟨"taxTotal", JsVal.vnum t, JsVal.vnum (round2 (g - round2 (g / (1 + r)))),
        "Recalculated Tax from Gross"⟩ : Correction) ∈
        (finalize now conf (taxStage rawText st3)).proposedCorrections ∧
      (finalize now conf (taxStage rawText st3)).normalizedInvoice.netTotal =
        JsVal.vnum (round2 (g / (1 + r))) ∧
      (finalize now conf (taxStage rawText st3)).normalizedInvoice.taxTotal =
        JsVal.vnum (round2 (g - round2 (g / (1 + r)))) ∧
      containsSubstr (finalize now conf (taxStage rawText st3)).reasoning
        "Tax calculation invalid" = false ∧
      (containsSubstr (finalize now conf (taxStage rawText st3)).reasoning
        "Totals do not sum up" = true ↔ 1 < |n + t - g|))) ∧
    (¬ 1 < |n * (1 + r) - g| → ¬ 1 < |n + t - g| →
      ((finalize now conf (taxStage rawText st3)).normalizedInvoice.netTotal =
        JsVal.vnum n ∧
      (finalize now conf (taxStage rawText st3)).normalizedInvoice.taxTotal =
        JsVal.vnum t ∧
      (∀ c ∈ (finalize now conf (taxStage rawText st3)).proposedCorrections,
        c.reason ≠ "Detected \x27incl. VAT\x27 context, recalculated Net from Gross" ∧
        c.reason ≠ "Recalculated Tax from Gross") ∧
      containsSubstr (finalize now conf (taxStage rawText st3)).reasoning
        "Totals do not sum up" = false ∧
      containsSubstr (finalize now conf (taxStage rawText st3)).reasoning
        "Tax calculation invalid" = false)) := by
  have h1 := taxSumStage_spec st3 n t g hn ht hg
  constructor
  · intro hcalc hincl
    have hf1 : (taxSumStage st3).fields = st3.fields := by rw [h1]
    have h2 := taxCalcStage_recalc rawText (taxSumStage st3) n r t g
      (by rw [hf1]; exact hn) (by rw [hf1]; exact hr) (by rw [hf1]; exact ht)
      (by rw [hf1]; exact hg) hcalc hincl
    unfold taxStage
    rw [h2, h1]
    dsimp only
    refine ⟨?_, ?_, ?_, ?_, ?_, ?_⟩
    · rw [finalize_corrections]
      simp
    · rw [finalize_corrections]
      simp
    · rw [finalize_fields]
    · rw [finalize_fields]
    · rw [finalize_reasoning]
      dsimp only
      rw [hreason]
      have hne : ¬ ((if 1 < |n + t - g| then st3.corrections else st3.corrections) ++
          [(⟨"netTotal", JsVal.vnum n, JsVal.vnum (round2 (g / (1 + r))),
            "Detected \x27incl. VAT\x27 context, recalculated Net from Gross"⟩ : Correction),
           ⟨"taxTotal", JsVal.vnum t, JsVal.vnum (round2 (g - round2 (g / (1 + r)))),
            "Recalculated Tax from Gross"⟩] = []) := by
        simp
      by_cases hs : 1 < |n + t - g| <;>
        by_cases hm : (jsFalsy st3.fields.invoiceNumber || jsFalsy st3.fields.invoiceDate ||
          jsFalsy st3.fields.currency) = true <;>
        simp only [hs, hm, if_pos, if_neg, if_true, if_false, ite_true, ite_false,
          String.append_empty, Bool.not_eq_true] <;>
        simp [hs, hm] <;>
        decide
    · rw [finalize_reasoning]
      dsimp only
      rw [hreason]
      by_cases hs : 1 < |n + t - g| <;>
        by_cases hm : (jsFalsy st3.fields.invoiceNumber || jsFalsy st3.fields.invoiceDate ||
          jsFalsy st3.fields.currency) = true <;>
        simp only [hs, hm, ite_true, ite_false] <;>
        simp [hs, hm] <;>
        first
          | (refine iff_of_true ?_ hs; decide)
          | (refine iff_of_false ?_ hs; decide)
          | decide
  · intro hcalc hsum
    have h1' : taxSumStage st3 = st3 := by
      rw [h1, if_neg hsum, if_neg hsum]
    unfold taxStage
    rw [h1', taxCalcStage_quiet rawText st3 n r g hn hr hg hcalc]
    refine ⟨?_, ?_, ?_, ?_, ?_⟩
    · rw [finalize_fields]
      exact hn
    · rw [finalize_fields]
      exact ht
    · intro c hc
      rw [finalize_corrections] at hc
      rw [hcorr c hc]
      constructor <;> decide
    · rw [finalize_reasoning, hreason]
      by_cases hc0 : st3.corrections = [] <;>
        by_cases hm : (jsFalsy st3.fields.invoiceNumber || jsFalsy st3.fields.invoiceDate ||
          jsFalsy st3.fields.currency) = true <;>
        simp only [hc0, hm, ite_true, ite_false] <;>
        simp [hc0, hm] <;>
        decide
    · rw [finalize_reasoning, hreason]
      by_cases hc0 : st3.corrections = [] <;>
        by_cases hm : (jsFalsy st3.fields.invoiceNumber || jsFalsy st3.fields.invoiceDate ||
          jsFalsy st3.fields.currency) = true <;>
        simp only [hc0, hm, ite_true, ite_false] <;>
        simp [hc0, hm] <;>
        decide

/-- C4 counterexample: on `exInvB2` (Net 200, Tax 0, Gross 119, Rate 0.19,
raw text containing "incl. VAT") the calc difference exceeds 1.0 and the
inclusive-VAT marker is present, so by the claim the tax checks should not
flag review; `process` does emit the recalculated Net correction, but it
also sets `requiresHumanReview` and reports "Totals do not sum up": the
independent sum check still flags review. -/
theorem claim4_counterexample :
    (1 : ℚ) < |200 * (1 + 19 / 100) - 119| ∧
    inclVatText exInvB2.rawText = true ∧
    ((⟨"netTotal", JsVal.vnum 200, JsVal.vnum 100,
      "Detected \x27incl. VAT\x27 context, recalculated Net from Gross"⟩ : Correction) ∈
      (process emptyStore "T4" exInvB2 refEmpty []).proposedCorrections) ∧
    (process emptyStore "T4" exInvB2 refEmpty []).requiresHumanReview = true ∧
    containsSubstr (process emptyStore "T4" exInvB2 refEmpty []).reasoning
      "Totals do not sum up" = true := by
  refine ⟨by with_unfolding_all decide, by decide, ?_, ?_, ?_⟩ <;>
    with_unfolding_all decide

/-- C4 (amended): for a non-duplicate invoice of a vendor with empty memory
and numeric Net, Rate, Tax, Gross: (a) if |Net·(1+Rate)−Gross| > 1.0 and the
raw text contains "incl. vat" or "mwst. inkl" case-insensitively, `process`
emits Corrections Net → round(Gross/(1+Rate), 2) and
Tax → round(Gross−Net\x27, 2), writes both into the normalized invoice, and the
calc check itself adds no review reason — but the independent sum check still
reports "Totals do not sum up" exactly when |Net+Tax−Gross| > 1.0; (b) if
both differences are within 1.0, Net and Tax are unchanged, no tax Correction
is emitted and no tax message appears in the reasoning. -/
theorem claim4_tax_reconciliation_amended (store : MemoryStoreData) (now : String)
    (inv : Invoice) (ref : ReferenceData) (past : List Invoice) (n r t g : ℚ)
    (hnd : past.find? (isDuplicateOf inv) = none)
    (hempty : getVendorMemory store inv.vendor = ⟨inv.vendor, [], []⟩)
    (hn : inv.fields.netTotal = JsVal.vnum n) (hr : inv.fields.taxRate = JsVal.vnum r)
    (ht : inv.fields.taxTotal = JsVal.vnum t) (hg : inv.fields.grossTotal = JsVal.vnum g) :
    (1 < |n * (1 + r) - g| → inclVatText inv.rawText = true →
      ((⟨"netTotal", JsVal.vnum n, JsVal.vnum (round2 (g / (1 + r))),
        "Detected \x27incl. VAT\x27 context, recalculated Net from Gross"⟩ : Correction) ∈
        (process store now inv ref past).proposedCorrections ∧
      (⟨"taxTotal", JsVal.vnum t, JsVal.vnum (round2 (g - round2 (g / (1 + r)))),
        "Recalculated Tax from Gross"⟩ : Correction) ∈
        (process store now inv ref past).proposedCorrections ∧
      (process store now inv ref past).normalizedInvoice.netTotal =
        JsVal.vnum (round2 (g / (1 + r))) ∧
      (process store now inv ref past).normalizedInvoice.taxTotal =
        JsVal.vnum (round2 (g - round2 (g / (1 + r)))) ∧
      containsSubstr (process store now inv ref past).reasoning
        "Tax calculation invalid" = false ∧
      (containsSubstr (process store now inv ref past).reasoning
        "Totals do not sum up" = true ↔ 1 < |n + t - g|))) ∧
    (¬ 1 < |n * (1 + r) - g| → ¬ 1 < |n + t - g| →
      ((process store now inv ref past).normalizedInvoice.netTotal = JsVal.vnum n ∧
      (process store now inv ref past).normalizedInvoice.taxTotal = JsVal.vnum t ∧
      (∀ c ∈ (process store now inv ref past).proposedCorrections,
        c.reason ≠ "Detected \x27incl. VAT\x27 context, recalculated Net from Gross" ∧
        c.reason ≠ "Recalculated Tax from Gross") ∧
      containsSubstr (process store now inv ref past).reasoning
        "Totals do not sum up" = false ∧
      containsSubstr (process store now inv ref past).reasoning
        "Tax calculation invalid" = false)) := by
  unfold process
  rw [hnd]
  unfold processPipeline
  rw [hempty]
  dsimp only
  simp only [applyPatterns, applyStatics, List.foldl_nil]
  rcases applyPOStage_cases inv.vendor ref (initState now inv) with hpo | ⟨po, hpo⟩
  · rw [hpo]
    refine pipeline_tax_facts inv.rawText now inv.confidence _ n r t g hn hr ht hg rfl ?_
    intro c hc
    simp [initState] at hc
  · rw [hpo]
    refine pipeline_tax_facts inv.rawText now inv.confidence _ n r t g hn hr ht hg rfl ?_
    intro c hc
    simp [initState] at hc
    rw [hc]

/-- Witness for the amended C4 at `exInvB` (Net 119, Tax 0, Gross 119,
Rate 0.19, "incl. VAT" in the raw text): the calc branch fires, Net is
recalculated to 100 and Tax to 19, and since the sum check passes no review
reason is reported. -/
theorem claim4_witness :
    (1 : ℚ) < |119 * (1 + 19 / 100) - 119| ∧
    inclVatText exInvB.rawText = true ∧
    round2 ((119 : ℚ) / (1 + 19 / 100)) = 100 ∧
    round2 ((119 : ℚ) - round2 (119 / (1 + 19 / 100))) = 19 ∧
    ((⟨"netTotal", JsVal.vnum 119, JsVal.vnum (round2 ((119 : ℚ) / (1 + 19 / 100))),
      "Detected \x27incl. VAT\x27 context, recalculated Net from Gross"⟩ : Correction) ∈
      (process emptyStore "T4" exInvB refEmpty []).proposedCorrections) ∧
    ((⟨"taxTotal", JsVal.vnum 0,
      JsVal.vnum (round2 ((119 : ℚ) - round2 (119 / (1 + 19 / 100)))),
      "Recalculated Tax from Gross"⟩ : Correction) ∈
      (process emptyStore "T4" exInvB refEmpty []).proposedCorrections) ∧
    containsSubstr (process emptyStore "T4" exInvB refEmpty []).reasoning
      "Totals do not sum up" = false := by
  have h := (claim4_tax_reconciliation_amended emptyStore "T4" exInvB refEmpty []
    119 (19 / 100) 0 119 rfl rfl rfl rfl rfl rfl).1
    (by with_unfolding_all decide) (by decide)
  refine ⟨by with_unfolding_all decide, by decide, by with_unfolding_all decide,
    by with_unfolding_all decide, h.1, h.2.1, ?_⟩
  cases hb : containsSubstr (process emptyStore "T4" exInvB refEmpty []).reasoning
      "Totals do not sum up" with
  | false => rfl
  | true =>
    exact absurd (h.2.2.2.2.2.mp hb) (by with_unfolding_all decide)

theorem upsertPattern_key_self (ps : List ExtractionPattern) (p : ExtractionPattern)
    (now : String) :
    ∃ q ∈ upsertPattern ps p now, q.field = p.field ∧ q.regexPattern = p.regexPattern := by
  induction ps with
  | nil => exact ⟨p, by simp [upsertPattern], rfl, rfl⟩
  | cons r t ih =>
    by_cases hr : r.field = p.field ∧ r.regexPattern = p.regexPattern
    · refine ⟨reinforcedPattern r now, ?_, hr.1, hr.2⟩
      simp only [upsertPattern, if_pos hr]
      exact List.mem_cons_self _ _
    · obtain ⟨q, hq, hkey⟩ := ih
      refine ⟨q, ?_, hkey⟩
      simp only [upsertPattern, if_neg hr]
      exact List.mem_cons_of_mem r hq

theorem upsertPattern_key_mono (ps : List ExtractionPattern) (p : ExtractionPattern)
    (now : String) (f rx : String)
    (h : ∃ q ∈ ps, q.field = f ∧ q.regexPattern = rx) :
    ∃ q ∈ upsertPattern ps p now, q.field = f ∧ q.regexPattern = rx := by
  induction ps with
  | nil => simp at h
  | cons r t ih =>
    obtain ⟨q, hq, hkey⟩ := h
    by_cases hr : r.field = p.field ∧ r.regexPattern = p.regexPattern
    · rcases List.mem_cons.mp hq with rfl | hqt
      · refine ⟨reinforcedPattern q now, ?_, hkey⟩
        simp only [upsertPattern, if_pos hr]
        exact List.mem_cons_self _ _
      · refine ⟨q, ?_, hkey⟩
        simp only [upsertPattern, if_pos hr]
        exact List.mem_cons_of_mem _ hqt
    · rcases List.mem_cons.mp hq with rfl | hqt
      · refine ⟨q, ?_, hkey⟩
        simp only [upsertPattern, if_neg hr]
        exact List.mem_cons_self _ _
      · obtain ⟨q', hq', hkey'⟩ := ih ⟨q, hqt, hkey⟩
        refine ⟨q', ?_, hkey'⟩
        simp only [upsertPattern, if_neg hr]
        exact List.mem_cons_of_mem _ hq'

theorem getVendorMemory_setVendor_ne (d : MemoryStoreData) (v v' : String) (m : VendorMemory)
    (h : v ≠ v') :
    getVendorMemory (setVendor d v m) v' = getVendorMemory d v' := by
  simp [getVendorMemory, setVendor, lookup_setAssoc_ne d.vendors v v' m h]

theorem patKeyPresent_addPattern_self (d : MemoryStoreData) (vendor : String)
    (p : ExtractionPattern) (now : String) :
    patKeyPresent (addPattern d vendor p now) vendor p.field p.regexPattern := by
  unfold patKeyPresent
  rw [getVendorMemory_addPattern]
  exact upsertPattern_key_self _ p now

theorem patKeyPresent_addPattern_mono (d : MemoryStoreData) (vendor v' : String)
    (p : ExtractionPattern) (now f rx : String)
    (h : patKeyPresent d v' f rx) :
    patKeyPresent (addPattern d vendor p now) v' f rx := by
  by_cases hv : vendor = v'
  · subst hv
    unfold patKeyPresent at h ⊢
    rw [getVendorMemory_addPattern]
    exact upsertPattern_key_mono _ p now f rx h
  · unfold patKeyPresent at h ⊢
    unfold addPattern
    dsimp only
    rw [getVendorMemory_setVendor_ne _ _ _ _ hv]
    exact h

theorem patKeyPresent_addStatic_mono (d : MemoryStoreData) (vendor v' : String)
    (c : ValueCorrection) (f rx : String)
    (h : patKeyPresent d v' f rx) :
    patKeyPresent (addStaticCorrection d vendor c) v' f rx := by
  by_cases hv : vendor = v'
  · subst hv
    unfold patKeyPresent at h ⊢
    rw [getVendorMemory_addStatic]
    exact h
  · unfold patKeyPresent at h ⊢
    unfold addStaticCorrection
    dsimp only
    rw [getVendorMemory_setVendor_ne _ _ _ _ hv]
    exact h

theorem learnPatternStep_cases (store : MemoryStoreData) (vendor rawText now : String)
    (c : Correction) :
    learnPatternStep store vendor rawText now c = store ∨
    ∃ p, learnPatternStep store vendor rawText now c = addPattern store vendor p now := by
  unfold learnPatternStep
  cases hto : c.to_ with
  | vstr v =>
    dsimp only
    by_cases hlen : minLengthFor c.field ≤ v.length
    · rw [if_pos hlen]
      cases hf : firstFoundValue rawText (searchValues v) with
      | some pr =>
        obtain ⟨val, idx⟩ := pr
        dsimp only
        cases hl : labeledPattern rawText c.field val now idx with
        | some pat => exact Or.inr ⟨pat, rfl⟩
        | none => exact Or.inl rfl
      | none =>
        dsimp only
        by_cases hsp : containsSubstr v " " = true
        · rw [if_pos hsp]
          cases hfp : flexPattern v with
          | some fp =>
            dsimp only
            by_cases hm : flexMatches rawText fp = true
            · rw [if_pos hm]
              exact Or.inr ⟨_, rfl⟩
            · rw [if_neg hm]
              exact Or.inl rfl
          | none => exact Or.inl rfl
        · rw [if_neg hsp]
          exact Or.inl rfl
    · rw [if_neg hlen]
      exact Or.inl rfl
  | vnum q => exact Or.inl rfl
  | vnull => exact Or.inl rfl
  | vundef => exact Or.inl rfl
  | varr => exact Or.inl rfl

theorem learnSkuStep_cases (store : MemoryStoreData) (vendor : String) (fields : InvoiceFields)
    (c : Correction) :
    learnSkuStep store vendor fields c = store ∨
    ∃ sc, learnSkuStep store vendor fields c = addStaticCorrection store vendor sc := by
  unfold learnSkuStep
  by_cases hc : (containsSubstr c.field "sku" && jsTruthy c.to_) = true
  · rw [if_pos hc]
    cases hidx : skuFieldIndex c.field with
    | none => exact Or.inl rfl
    | some idx =>
      dsimp only
      cases hdesc : (fields.lineItems.get? idx).bind (fun item => item.description) with
      | none => exact Or.inl rfl
      | some desc =>
        dsimp only
        by_cases hde : desc = ""
        · rw [if_pos hde]
          exact Or.inl rfl
        · rw [if_neg hde]
          cases hto : c.to_ with
          | vstr tv => exact Or.inr ⟨_, rfl⟩
          | vnum q => exact Or.inl rfl
          | vnull => exact Or.inl rfl
          | vundef => exact Or.inl rfl
          | varr => exact Or.inl rfl
  · rw [if_neg hc]
    exact Or.inl rfl

theorem patKeyPresent_learnStep_mono (vendor rawText : String) (fields : InvoiceFields)
    (now : String) (d : MemoryStoreData) (c : Correction) (v f rx : String)
    (h : patKeyPresent d v f rx) :
    patKeyPresent (learnStep vendor rawText fields now d c) v f rx := by
  unfold learnStep
  have h1 : patKeyPresent (learnPatternStep d vendor rawText now c) v f rx := by
    rcases learnPatternStep_cases d vendor rawText now c with he | ⟨p, he⟩
    · rw [he]
      exact h
    · rw [he]
      exact patKeyPresent_addPattern_mono _ _ _ _ _ _ _ h
  rcases learnSkuStep_cases (learnPatternStep d vendor rawText now c) vendor fields c with
    he | ⟨sc, he⟩
  · rw [he]
    exact h1
  · rw [he]
    exact patKeyPresent_addStatic_mono _ _ _ _ _ _ h1

theorem patKeyPresent_foldl_mono (vendor rawText : String) (fields : InvoiceFields)
    (now : String) (cs : List Correction) (d : MemoryStoreData) (v f rx : String)
    (h : patKeyPresent d v f rx) :
    patKeyPresent (cs.foldl (learnStep vendor rawText fields now) d) v f rx := by
  induction cs generalizing d with
  | nil => exact h
  | cons c t ih =>
    exact ih _ (patKeyPresent_learnStep_mono vendor rawText fields now d c v f rx h)

theorem learnStep_key (vendor rawText : String) (fields : InvoiceFields) (now : String)
    (d : MemoryStoreData) (c : Correction) (v val : String) (label : List Char) (idx : Nat)
    (hto : c.to_ = JsVal.vstr v)
    (hlen : minLengthFor c.field ≤ v.length)
    (hfirst : firstFoundValue rawText (searchValues v) = some (val, idx))
    (hlabel : labelExtract (cleanContext rawText.data idx) = some label) :
    patKeyPresent (learnStep vendor rawText fields now d c) vendor c.field
      ((⟨label⟩ : String) ++ ":?\\s*" ++ valueShape val) := by
  unfold learnStep
  have hps : learnPatternStep d vendor rawText now c =
      addPattern d vendor
        { field := c.field,
          regexPattern := (⟨label⟩ : String) ++ ":?\\s*" ++ valueShape val,
          confidence := 6 / 10, usageCount := 1, lastUsed := now } now := by
    unfold learnPatternStep
    rw [hto]
    dsimp only
    rw [if_pos hlen, hfirst]
    dsimp only
    unfold labeledPattern
    rw [hlabel]
  rw [hps]
  rcases learnSkuStep_cases (addPattern d vendor
      { field := c.field,
        regexPattern := (⟨label⟩ : String) ++ ":?\\s*" ++ valueShape val,
        confidence := 6 / 10, usageCount := 1, lastUsed := now } now) vendor fields c with
    he | ⟨sc, he⟩
  · rw [he]
    exact patKeyPresent_addPattern_self d vendor _ now
  · rw [he]
    exact patKeyPresent_addStatic_mono _ _ _ _ _ _
      (patKeyPresent_addPattern_self d vendor _ now)

set_option maxRecDepth 8000 in
/-- C1: whenever an approved human correction carries a string value that
meets the minimum length (3 for currency, else 4), one of its search
renderings (verbatim, or DD.MM.YYYY / DD/MM/YYYY for an ISO date) occurs in
the raw text, and a letters-only label immediately precedes the occurrence,
`learn` persists for that vendor and field a pattern whose regex is
`<label>:?\s*(<value-shape>)`.  In particular, learning from
"Leistungsdatum: 01.01.2024" with correction serviceDate → "2024-01-01"
stores exactly the Leistungsdatum-labeled DD.MM.YYYY date-shape pattern
with confidence 0.6, and a subsequent `process` of a same-vendor invoice with null
serviceDate and raw text containing "Leistungsdatum: 05.01.2024" emits the
pattern Correction and sets serviceDate to "05.01.2024". -/
theorem claim1_pattern_induction_and_recovery :
    (∀ (store : MemoryStoreData) (now : String) (invoice : Invoice)
      (log : HumanCorrectionLog) (c : Correction) (v val : String)
      (label : List Char) (idx : Nat),
      log.finalDecision = FinalDecision.approved →
      c ∈ log.corrections →
      c.to_ = JsVal.vstr v →
      minLengthFor c.field ≤ v.length →
      firstFoundValue invoice.rawText (searchValues v) = some (val, idx) →
      labelExtract (cleanContext invoice.rawText.data idx) = some label →
      patKeyPresent (learn store now invoice log) invoice.vendor c.field
        ((⟨label⟩ : String) ++ ":?\\s*" ++ valueShape val)) ∧
    (getVendorMemory exStoreA "Supplier GmbH").patterns =
      [⟨"serviceDate", "Leistungsdatum:?\\s*(\\d{2}\\.\\d{2}\\.\\d{4})", 3 / 5, 1, "T1"⟩] ∧
    ((⟨"serviceDate", JsVal.vnull, JsVal.vstr "05.01.2024",
      "Memory applied: Found match in raw text using learned pattern for serviceDate"⟩ :
      Correction) ∈ (process exStoreA "T2" exInvA2 refEmpty []).proposedCorrections) ∧
    (process exStoreA "T2" exInvA2 refEmpty []).normalizedInvoice.serviceDate =
      JsVal.vstr "05.01.2024" := by
  refine ⟨?_, by with_unfolding_all decide, by with_unfolding_all decide,
    by with_unfolding_all decide⟩
  intro store now invoice log c v val label idx hap hc hto hlen hfirst hlabel
  unfold learn
  rw [hap]
  dsimp only
  obtain ⟨s, t, hst⟩ := List.append_of_mem hc
  rw [hst, List.foldl_append, List.foldl_cons]
  exact patKeyPresent_foldl_mono _ _ _ _ t _ _ _ _
    (learnStep_key _ _ _ _ _ c v val label idx hto hlen hfirst hlabel)

/-- Witness for C1: the general part instantiated at the concrete learning
scenario (correction serviceDate → "2024-01-01", raw text containing
"Leistungsdatum: 01.01.2024" with the date found at index 25). -/
theorem claim1_witness :
    exLogA.finalDecision = FinalDecision.approved ∧
    ((⟨"serviceDate", JsVal.vnull, JsVal.vstr "2024-01-01", "fix"⟩ : Correction) ∈
      exLogA.corrections) ∧
    minLengthFor "serviceDate" ≤ ("2024-01-01" : String).length ∧
    firstFoundValue exInvA.rawText (searchValues "2024-01-01") = some ("01.01.2024", 25) ∧
    labelExtract (cleanContext exInvA.rawText.data 25) = some ("Leistungsdatum".data) ∧
    patKeyPresent (learn emptyStore "T1" exInvA exLogA) "Supplier GmbH" "serviceDate"
      ((⟨"Leistungsdatum".data⟩ : String) ++ ":?\\s*" ++ valueShape "01.01.2024") := by
  refine ⟨rfl, by decide, by decide, by decide, by decide, ?_⟩
  exact claim1_pattern_induction_and_recovery.1 emptyStore "T1" exInvA exLogA
    ⟨"serviceDate", JsVal.vnull, JsVal.vstr "2024-01-01", "fix"⟩ "2024-01-01" "01.01.2024"
    ("Leistungsdatum".data) 25 rfl (by decide) rfl (by decide) (by decide) (by decide)

end FlowBit
